import Mathlib

/-!
Verification of the `pytuya` LAN protocol engine
(`custom_components/localtuya_bildass/pytuya/`).

Byte strings are modelled as `List Nat` (each element a byte value `< 256`
where it matters).  Pure functions of the source are translated directly;
the external `cryptography` library primitives (the AES block permutation,
HMAC-SHA256, AES-GCM encrypt/decrypt, AES-CTR) are library calls, not code
of this repository, and are taken as explicit function parameters of the
embedded definitions, with the properties a theorem needs stated as
hypotheses and discharged on concrete instances in the witnesses.
-/

namespace Pytuya

/-- A byte string: list of byte values. -/
abbrev Bytes := List Nat

/-! ## Constants (`constants.py`) -/

def AES_BLOCK_SIZE : Nat := 16
def GCM_NONCE_SIZE : Nat := 12
def GCM_TAG_SIZE : Nat := 16
def MAX_PAYLOAD_SIZE : Nat := 2000

def PREFIX_55AA : Nat := 0x000055AA
def SUFFIX_55AA : Nat := 0x0000AA55
def PREFIX_6699 : Nat := 0x00006699
def SUFFIX_6699 : Nat := 0x00009966

def HEADER_SIZE_55AA : Nat := 16
def HEADER_SIZE_6699 : Nat := 18
def RETCODE_SIZE : Nat := 4
def FOOTER_SIZE_55AA_CRC : Nat := 8
def FOOTER_SIZE_55AA_HMAC : Nat := 36
def FOOTER_SIZE_6699 : Nat := 20

def CMD_SESS_KEY_NEG_START : Nat := 0x03
def CMD_SESS_KEY_NEG_RESP : Nat := 0x04
def CMD_SESS_KEY_NEG_FINISH : Nat := 0x05
def CMD_CONTROL : Nat := 0x07
def CMD_STATUS : Nat := 0x08
def CMD_HEART_BEAT : Nat := 0x09
def CMD_DP_QUERY : Nat := 0x0A
def CMD_CONTROL_NEW : Nat := 0x0D
def CMD_DP_QUERY_NEW : Nat := 0x10
def CMD_UPDATE_DPS : Nat := 0x12
def CMD_AP_CONFIG : Nat := 0x01

/-! ## Byte-level helpers

`u32be` is `struct.pack(">I", n)`; `beToNat` is `struct.unpack(">I", _)[0]`.
`slice l a b` is Python's `l[a:b]` (for non-negative indices, with the same
clamping behaviour); `sliceFrom l a` is `l[a:]`. -/

def u32be (n : Nat) : Bytes :=
  [n / 2 ^ 24 % 256, n / 2 ^ 16 % 256, n / 2 ^ 8 % 256, n % 256]

def beToNat (l : Bytes) : Nat :=
  l.foldl (fun a b => a * 256 + b) 0

def slice (l : Bytes) (a b : Nat) : Bytes :=
  (l.take b).drop a

def sliceFrom (l : Bytes) (a : Nat) : Bytes :=
  l.drop a

/-! ## PKCS#7 padding (`cipher.py`, `AESCipher._pkcs7_pad` / `_pkcs7_unpad`) -/

/-- `AESCipher._pkcs7_pad`: append `pad_len` copies of `pad_len`,
where `pad_len = 16 - len(data) % 16`. -/
def pkcs7Pad (data : Bytes) : Bytes :=
  let padLen := AES_BLOCK_SIZE - data.length % AES_BLOCK_SIZE
  data ++ List.replicate padLen padLen

/-- `AESCipher._pkcs7_unpad`: tolerant unpadding; on any invalid padding the
input is returned unchanged. -/
def pkcs7Unpad (data : Bytes) : Bytes :=
  if data = [] then data
  else
    let padLen := data.getLast?.getD 0
    if padLen > AES_BLOCK_SIZE ∨ padLen = 0 then data
    else if data.drop (data.length - padLen) ≠ List.replicate padLen padLen then data
    else data.take (data.length - padLen)

lemma getLast?_append_replicate (d : Bytes) (p v : Nat) (hp : 1 ≤ p) :
    (d ++ List.replicate p v).getLast? = some v := by
  rw [List.getLast?_append_of_ne_nil]
  · induction p with
    | zero => omega
    | succ n ih =>
      cases n with
      | zero => rfl
      | succ m =>
        rw [List.replicate_succ, List.getLast?_cons, ih (by omega)]
        simp [List.replicate_succ]
  · simp
    omega

lemma drop_append_left (a b : Bytes) : (a ++ b).drop a.length = b := by
  simp

lemma take_append_left (a b : Bytes) : (a ++ b).take a.length = a := by
  simp

/-- C10: `_pkcs7_unpad (_pkcs7_pad d) = d`; the padder appends between 1 and
16 bytes, each equal to the pad length, and the padded length is a multiple
of 16. -/
theorem pkcs7_pad_unpad_roundtrip (d : Bytes) :
    pkcs7Unpad (pkcs7Pad d) = d ∧
    (pkcs7Pad d).length % 16 = 0 ∧
    ∃ p, 1 ≤ p ∧ p ≤ 16 ∧ pkcs7Pad d = d ++ List.replicate p p := by
  set p := AES_BLOCK_SIZE - d.length % AES_BLOCK_SIZE with hp
  have hmod : d.length % AES_BLOCK_SIZE < 16 := Nat.mod_lt _ (by norm_num [AES_BLOCK_SIZE])
  have hp1 : 1 ≤ p := by simp only [hp, AES_BLOCK_SIZE] at *; omega
  have hp16 : p ≤ 16 := by simp only [hp, AES_BLOCK_SIZE]; omega
  have hpad : pkcs7Pad d = d ++ List.replicate p p := rfl
  have hlen : (pkcs7Pad d).length = d.length + p := by
    simp [hpad]
  refine ⟨?_, ?_, p, hp1, hp16, hpad⟩
  · rw [hpad]
    unfold pkcs7Unpad
    have hne : d ++ List.replicate p p ≠ [] := by
      simp
      omega
    rw [if_neg hne]
    have hlast : (d ++ List.replicate p p).getLast?.getD 0 = p := by
      rw [getLast?_append_replicate d p p hp1]
      rfl
    simp only [hlast]
    rw [if_neg (by simp only [AES_BLOCK_SIZE]; omega)]
    have hlen' : (d ++ List.replicate p p).length - p = d.length := by
      simp
    rw [hlen']
    rw [drop_append_left, take_append_left]
    simp
  · rw [hlen]
    simp only [hp, AES_BLOCK_SIZE] at *
    omega

/-! ## Message structures (`message.py`) -/

/-- `TuyaHeader` of `message.py`. -/
structure TuyaHeaderL where
  pfx : Nat
  seqno : Nat
  cmd : Nat
  length : Nat
  totalLength : Nat
  deriving DecidableEq, Repr

/-- `TuyaMessage` of `message.py`. -/
structure TuyaMessageL where
  seqno : Nat
  cmd : Nat
  payload : Bytes
  retcode : Nat
  crcGood : Bool
  pfx : Nat
  nonce : Option Bytes
  tag : Option Bytes
  deriving DecidableEq, Repr

def PREFIX_55AA_BIN : Bytes := [0x00, 0x00, 0x55, 0xAA]
def PREFIX_6699_BIN : Bytes := [0x00, 0x00, 0x66, 0x99]

/-! ## CRC32 (`binascii.crc32(...) & 0xFFFFFFFF`) -/

def crc32Step (crc b : Nat) : Nat :=
  (List.range 8).foldl
    (fun c _ => if c % 2 = 1 then (c / 2) ^^^ 0xEDB88320 else c / 2)
    (crc ^^^ b)

def crc32 (data : Bytes) : Nat :=
  ((data.foldl crc32Step 0xFFFFFFFF) ^^^ 0xFFFFFFFF) % 2 ^ 32

/-! ## ECB encryption (`cipher.py`, `encrypt_ecb` / `decrypt_ecb`)

The library's AES-ECB applies the AES block permutation to each 16-byte
block; the block permutation itself (`blockEnc`) is the external library
primitive and is a parameter. -/

def chunks16Fuel : Nat → Bytes → List Bytes
  | _, [] => []
  | 0, _ :: _ => []
  | Nat.succ n, a :: rest => ((a :: rest).take 16) :: chunks16Fuel n ((a :: rest).drop 16)

def chunks16 (l : Bytes) : List Bytes := chunks16Fuel l.length l

lemma chunks16Fuel_congr : ∀ (n m : Nat) (l : Bytes),
    l.length ≤ n → l.length ≤ m → chunks16Fuel n l = chunks16Fuel m l := by
  intro n
  induction n with
  | zero =>
    intro m l hn _
    have : l = [] := List.eq_nil_of_length_eq_zero (by omega)
    subst this
    cases m <;> rfl
  | succ n ih =>
    intro m l hn hm
    cases l with
    | nil => cases m <;> rfl
    | cons a rest =>
      cases m with
      | zero => simp at hm
      | succ m =>
        simp only [chunks16Fuel]
        congr 1
        refine ih m ((a :: rest).drop 16) ?_ ?_ <;> simp_all <;> omega

lemma chunks16_eq (l : Bytes) :
    chunks16 l = if l = [] then [] else l.take 16 :: chunks16 (l.drop 16) := by
  cases l with
  | nil => rfl
  | cons a rest =>
    simp only [chunks16, List.length_cons, chunks16Fuel]
    rw [if_neg (by simp)]
    congr 1
    refine chunks16Fuel_congr rest.length ((a :: rest).drop 16).length _ ?_ (le_refl _)
    simp

/-- `AESCipher.encrypt_ecb(plaintext, pad)`. -/
def ecbEncrypt (blockEnc : Bytes → Bytes) (pad : Bool) (plaintext : Bytes) : Bytes :=
  let d := if pad then pkcs7Pad plaintext else plaintext
  ((chunks16 d).map blockEnc).flatten

/-- `AESCipher.decrypt_ecb(ciphertext, unpad)`. -/
def ecbDecrypt (blockDec : Bytes → Bytes) (unpad : Bool) (ciphertext : Bytes) : Bytes :=
  let pt := ((chunks16 ciphertext).map blockDec).flatten
  if unpad then pkcs7Unpad pt else pt

/-! ## GCM / CTR wrappers (`cipher.py`)

`gcmEnc key nonce aad plaintext = (ciphertext, tag)` stands for the
library's AES-GCM encryptor; `gcmDec` for the authenticated decryptor
(`none` models a raised `InvalidTag`/`ValueError`); `ctrDec key counter
ciphertext` for the raw AES-CTR decryptor.  The length checks below are the
repository's own code. -/

/-- `AESCipher.decrypt_gcm`: nonce/tag length validation, then the library
call. -/
def decryptGcm (gcmDec : Bytes → Bytes → Bytes → Bytes → Option Bytes → Option Bytes)
    (key ciphertext nonce tag : Bytes) (aad : Option Bytes) : Option Bytes :=
  if nonce.length ≠ GCM_NONCE_SIZE ∨ tag.length ≠ GCM_TAG_SIZE then none
  else gcmDec key ciphertext nonce tag aad

/-- `AESCipher.decrypt_gcm_noauth`: AES-CTR with counter `nonce ‖ 0x00000002`. -/
def decryptGcmNoauth (ctrDec : Bytes → Bytes → Bytes → Bytes)
    (key ciphertext nonce : Bytes) : Option Bytes :=
  if nonce.length ≠ GCM_NONCE_SIZE then none
  else some (ctrDec key (nonce ++ [0x00, 0x00, 0x00, 0x02]) ciphertext)

/-! ## Header parsing (`protocol.py`, `parse_header`) -/

/-- `_parse_header_55aa`. -/
def parseHeader55aa (data : Bytes) : Except String TuyaHeaderL :=
  if data.length < HEADER_SIZE_55AA then .error "Not enough data for 55AA header"
  else
    let pfx := beToNat (slice data 0 4)
    let seqno := beToNat (slice data 4 8)
    let cmd := beToNat (slice data 8 12)
    let length := beToNat (slice data 12 16)
    if length > MAX_PAYLOAD_SIZE then .error "Header claims packet size too large"
    else .ok ⟨pfx, seqno, cmd, length, HEADER_SIZE_55AA + length⟩

/-- `_parse_header_6699`.  `total_length = HEADER_SIZE_6699 + length + 4`. -/
def parseHeader6699 (data : Bytes) : Except String TuyaHeaderL :=
  if data.length < HEADER_SIZE_6699 then .error "Not enough data for 6699 header"
  else
    let pfx := beToNat (slice data 0 4)
    let seqno := beToNat (slice data 6 10)
    let cmd := beToNat (slice data 10 14)
    let length := beToNat (slice data 14 18)
    if length > MAX_PAYLOAD_SIZE then .error "Header claims packet size too large"
    else .ok ⟨pfx, seqno, cmd, length, HEADER_SIZE_6699 + length + 4⟩

/-- `parse_header`. -/
def parseHeader (data : Bytes) : Except String TuyaHeaderL :=
  if data.length < 4 then .error "Not enough data to parse header prefix"
  else if data.take 4 = PREFIX_6699_BIN then parseHeader6699 data
  else if data.take 4 = PREFIX_55AA_BIN then parseHeader55aa data
  else .error "Unknown header prefix"

/-! ## Message packing (`protocol.py`, `pack_message`) -/

/-- `_pack_message_55aa`. -/
def pack55aa (blockEnc : Bytes → Bytes) (hmacF : Bytes → Bytes → Bytes)
    (seqno cmd : Nat) (payload key : Bytes) (encrypt useHmac : Bool) : Bytes :=
  let payload := if encrypt ∧ payload ≠ [] then ecbEncrypt blockEnc true payload else payload
  let footerSize := if useHmac then FOOTER_SIZE_55AA_HMAC else FOOTER_SIZE_55AA_CRC
  let length := payload.length + footerSize
  let header := u32be PREFIX_55AA ++ u32be seqno ++ u32be cmd ++ u32be length
  let dataToSign := header ++ payload
  let footer :=
    if useHmac then hmacF key dataToSign ++ u32be SUFFIX_55AA
    else u32be (crc32 dataToSign) ++ u32be SUFFIX_55AA
  header ++ payload ++ footer

/-- `_pack_message_6699`.  The random nonce (`os.urandom`) is a parameter.
Both branches of the source's `if encrypt and payload` call `encrypt_gcm`,
so the flag does not affect the result. -/
def pack6699 (gcmEnc : Bytes → Bytes → Bytes → Bytes → Bytes × Bytes)
    (seqno cmd : Nat) (payload key : Bytes) (nonce : Bytes) : Bytes :=
  let length := GCM_NONCE_SIZE + payload.length + GCM_TAG_SIZE
  let header := u32be PREFIX_6699 ++ [0x00, 0x00] ++ u32be seqno ++ u32be cmd ++ u32be length
  let aad := header.drop 4
  let ct := gcmEnc key nonce aad payload
  header ++ nonce ++ ct.1 ++ (ct.2 ++ u32be SUFFIX_6699)

/-- `pack_message`: dispatch by protocol version.  Versions are scaled by
ten (`34` is protocol 3.4). -/
def packMessage (blockEnc : Bytes → Bytes) (hmacF : Bytes → Bytes → Bytes)
    (gcmEnc : Bytes → Bytes → Bytes → Bytes → Bytes × Bytes)
    (seqno cmd : Nat) (payload key : Bytes) (version : Nat) (encrypt : Bool)
    (nonce : Bytes) : Bytes :=
  if 35 ≤ version then pack6699 gcmEnc seqno cmd payload key nonce
  else pack55aa blockEnc hmacF seqno cmd payload key encrypt (34 ≤ version)

/-! ## Message unpacking (`protocol.py`, `unpack_message`) -/

/-- `_unpack_message_55aa`.  The payload is *not* decrypted here (payload
decryption happens later in `TuyaProtocol._decode_payload`). -/
def unpack55aa (hmacF : Bytes → Bytes → Bytes) (data key : Bytes)
    (header : TuyaHeaderL) (useHmac noRetcode : Bool) : Except String TuyaMessageL :=
  let footerSize := if useHmac then FOOTER_SIZE_55AA_HMAC else FOOTER_SIZE_55AA_CRC
  if data.length < header.totalLength then .error "Not enough data"
  else
    let hasRetcode := ¬noRetcode ∧ HEADER_SIZE_55AA + RETCODE_SIZE ≤ data.length ∧
      beToNat (slice data HEADER_SIZE_55AA (HEADER_SIZE_55AA + RETCODE_SIZE)) < 100
    let retcode :=
      if hasRetcode then beToNat (slice data HEADER_SIZE_55AA (HEADER_SIZE_55AA + RETCODE_SIZE))
      else 0
    let payloadStart := if hasRetcode then HEADER_SIZE_55AA + RETCODE_SIZE else HEADER_SIZE_55AA
    let payloadEnd := HEADER_SIZE_55AA + header.length - footerSize
    let payload := slice data payloadStart payloadEnd
    let footerData := slice data payloadEnd (payloadEnd + footerSize)
    let crcGood :=
      if useHmac then decide (hmacF key (data.take payloadEnd) = footerData.take 32)
      else decide (crc32 (data.take payloadEnd) = beToNat (footerData.take 4))
    .ok ⟨header.seqno, header.cmd, payload, retcode, crcGood, header.pfx, none, none⟩

/-- The try/except ladder of `_unpack_message_6699`: GCM with AAD, then GCM
without AAD, then raw CTR (clearing the integrity flag), then give up with
an empty payload.  Returns `(payload, crc_good)`. -/
def gcmStrategies (gcmDec : Bytes → Bytes → Bytes → Bytes → Option Bytes → Option Bytes)
    (ctrDec : Bytes → Bytes → Bytes → Bytes)
    (key ciphertext nonce tag aad : Bytes) : Bytes × Bool :=
  match decryptGcm gcmDec key ciphertext nonce tag (some aad) with
  | some pl => (pl, true)
  | none =>
    match decryptGcm gcmDec key ciphertext nonce tag none with
    | some pl => (pl, true)
    | none =>
      match decryptGcmNoauth ctrDec key ciphertext nonce with
      | some pl => (pl, false)
      | none => (([] : Bytes), false)

/-- `_unpack_message_6699`: three decryption strategies in order (GCM with
AAD, GCM without AAD, raw CTR), the CTR fallback clearing `crc_good`; if
all fail the message is returned with an empty payload and
`crc_good = False`.  A leading zero u32 in the decrypted payload is
stripped as a retcode when more data follows. -/
def unpack6699 (gcmDec : Bytes → Bytes → Bytes → Bytes → Option Bytes → Option Bytes)
    (ctrDec : Bytes → Bytes → Bytes → Bytes)
    (data key : Bytes) (header : TuyaHeaderL) : Except String TuyaMessageL :=
  if data.length < header.totalLength then .error "Not enough data"
  else
    let nonce := slice data HEADER_SIZE_6699 (HEADER_SIZE_6699 + GCM_NONCE_SIZE)
    let payloadEnd := HEADER_SIZE_6699 + header.length - GCM_TAG_SIZE
    let ciphertext := slice data (HEADER_SIZE_6699 + GCM_NONCE_SIZE) payloadEnd
    let tag := slice data payloadEnd (payloadEnd + GCM_TAG_SIZE)
    let aad := slice data 4 HEADER_SIZE_6699
    let dec := gcmStrategies gcmDec ctrDec key ciphertext nonce tag aad
    let strip := dec.1.take 4 = [0x00, 0x00, 0x00, 0x00] ∧ 4 < dec.1.length
    let retcode := if strip then beToNat (dec.1.take 4) else 0
    let payload := if strip then dec.1.drop 4 else dec.1
    .ok ⟨header.seqno, header.cmd, payload, retcode, dec.2, header.pfx, some nonce, some tag⟩

/-- `unpack_message`: dispatch by header prefix. -/
def unpackMessage (hmacF : Bytes → Bytes → Bytes)
    (gcmDec : Bytes → Bytes → Bytes → Bytes → Option Bytes → Option Bytes)
    (ctrDec : Bytes → Bytes → Bytes → Bytes)
    (data key : Bytes) (version : Nat) (header? : Option TuyaHeaderL)
    (noRetcode : Bool) : Except String TuyaMessageL :=
  match (match header? with | some h => Except.ok h | none => parseHeader data) with
  | .error e => .error e
  | .ok header =>
    if header.pfx = PREFIX_6699 then unpack6699 gcmDec ctrDec data key header
    else unpack55aa hmacF data key header (34 ≤ version) noRetcode

/-! ## Byte-string lemmas -/

@[simp] lemma length_u32be (n : Nat) : (u32be n).length = 4 := rfl

lemma beToNat_u32be (n : Nat) : beToNat (u32be n) = n % 2 ^ 32 := by
  simp [beToNat, u32be]
  omega

lemma beToNat_u32be_of_lt {n : Nat} (h : n < 2 ^ 32) : beToNat (u32be n) = n := by
  rw [beToNat_u32be, Nat.mod_eq_of_lt h]

lemma slice_zero (l : Bytes) (b : Nat) : slice l 0 b = l.take b := by
  simp [slice]

lemma slice_shift (a rest : Bytes) (i j : Nat) :
    slice (a ++ rest) (a.length + i) (a.length + j) = slice rest i j := by
  unfold slice
  rw [List.take_append, List.drop_append]

lemma slice4_skip {a : Bytes} (rest : Bytes) (ha : a.length = 4) (i j : Nat) :
    slice (a ++ rest) (4 + i) (4 + j) = slice rest i j := by
  have h := slice_shift a rest i j
  rwa [ha] at h

lemma take_len_append {a : Bytes} (rest : Bytes) {k : Nat} (ha : a.length = k) :
    (a ++ rest).take k = a := by
  rw [← ha, take_append_left]

lemma slice_exact {a : Bytes} (rest : Bytes) {k : Nat} (ha : a.length = k) :
    slice (a ++ rest) 0 k = a := by
  rw [slice_zero, take_len_append rest ha]

lemma crc32_lt (data : Bytes) : crc32 data < 2 ^ 32 := by
  unfold crc32
  exact Nat.mod_lt _ (by norm_num)

/-! ## 55AA frame decomposition -/

/-- The 16-byte 55AA header built by `_pack_message_55aa` for a processed
payload of length `epLen` and footer size `fs`. -/
def hdr55 (seqno cmd epLen fs : Nat) : Bytes :=
  u32be PREFIX_55AA ++ u32be seqno ++ u32be cmd ++ u32be (epLen + fs)

/-- A 55AA frame with processed payload `ep` and stored signature `sig`. -/
def frame55 (seqno cmd : Nat) (ep sig : Bytes) (fs : Nat) : Bytes :=
  hdr55 seqno cmd ep.length fs ++ ep ++ (sig ++ u32be SUFFIX_55AA)

@[simp] lemma length_hdr55 (seqno cmd epLen fs : Nat) :
    (hdr55 seqno cmd epLen fs).length = 16 := by
  simp [hdr55]

lemma pack55aa_eq_frame55 (blockEnc : Bytes → Bytes) (hmacF : Bytes → Bytes → Bytes)
    (seqno cmd : Nat) (payload key : Bytes) (encrypt useHmac : Bool) :
    pack55aa blockEnc hmacF seqno cmd payload key encrypt useHmac =
      frame55 seqno cmd
        (if encrypt ∧ payload ≠ [] then ecbEncrypt blockEnc true payload else payload)
        (if useHmac then
          hmacF key (hdr55 seqno cmd
            (if encrypt ∧ payload ≠ [] then ecbEncrypt blockEnc true payload else payload).length
            36 ++ (if encrypt ∧ payload ≠ [] then ecbEncrypt blockEnc true payload else payload))
         else
          u32be (crc32 (hdr55 seqno cmd
            (if encrypt ∧ payload ≠ [] then ecbEncrypt blockEnc true payload else payload).length
            8 ++ (if encrypt ∧ payload ≠ [] then ecbEncrypt blockEnc true payload else payload))))
        (if useHmac then 36 else 8) := by
  cases useHmac <;>
    simp [pack55aa, frame55, hdr55, FOOTER_SIZE_55AA_HMAC, FOOTER_SIZE_55AA_CRC,
      List.append_assoc]

lemma length_frame55 (seqno cmd : Nat) (ep sig : Bytes) (fs : Nat) :
    (frame55 seqno cmd ep sig fs).length = 16 + ep.length + sig.length + 4 := by
  simp [frame55]
  omega

lemma parseHeader_frame55 (seqno cmd : Nat) (ep sig : Bytes) (fs : Nat)
    (hseq : seqno < 2 ^ 32) (hcmd : cmd < 2 ^ 32) (hlen : ep.length + fs ≤ 2000) :
    parseHeader (frame55 seqno cmd ep sig fs) =
      .ok ⟨PREFIX_55AA, seqno, cmd, ep.length + fs, 16 + (ep.length + fs)⟩ := by
  have hfr : frame55 seqno cmd ep sig fs =
      u32be PREFIX_55AA ++ (u32be seqno ++ (u32be cmd ++ (u32be (ep.length + fs) ++
        (ep ++ (sig ++ u32be SUFFIX_55AA))))) := by
    simp [frame55, hdr55, List.append_assoc]
  have hlenfr : (frame55 seqno cmd ep sig fs).length = 16 + ep.length + sig.length + 4 :=
    length_frame55 ..
  have htake4 : (frame55 seqno cmd ep sig fs).take 4 = u32be PREFIX_55AA := by
    rw [hfr]; exact take_len_append _ rfl
  have hs04 : slice (frame55 seqno cmd ep sig fs) 0 4 = u32be PREFIX_55AA := by
    rw [hfr]; exact slice_exact _ rfl
  have hs48 : slice (frame55 seqno cmd ep sig fs) 4 8 = u32be seqno := by
    rw [hfr]
    have h1 := slice4_skip (a := u32be PREFIX_55AA)
      (u32be seqno ++ (u32be cmd ++ (u32be (ep.length + fs) ++
        (ep ++ (sig ++ u32be SUFFIX_55AA))))) rfl 0 4
    rw [h1]
    exact slice_exact _ rfl
  have hs812 : slice (frame55 seqno cmd ep sig fs) 8 12 = u32be cmd := by
    rw [hfr]
    have h1 := slice4_skip (a := u32be PREFIX_55AA)
      (u32be seqno ++ (u32be cmd ++ (u32be (ep.length + fs) ++
        (ep ++ (sig ++ u32be SUFFIX_55AA))))) rfl 4 8
    rw [show ((8 : Nat) = 4 + 4) from rfl, show ((12 : Nat) = 4 + 8) from rfl, h1]
    have h2 := slice4_skip (a := u32be seqno)
      (u32be cmd ++ (u32be (ep.length + fs) ++ (ep ++ (sig ++ u32be SUFFIX_55AA)))) rfl 0 4
    rw [h2]
    exact slice_exact _ rfl
  have hs1216 : slice (frame55 seqno cmd ep sig fs) 12 16 = u32be (ep.length + fs) := by
    rw [hfr]
    have h1 := slice4_skip (a := u32be PREFIX_55AA)
      (u32be seqno ++ (u32be cmd ++ (u32be (ep.length + fs) ++
        (ep ++ (sig ++ u32be SUFFIX_55AA))))) rfl 8 12
    rw [show ((12 : Nat) = 4 + 8) from rfl, show ((16 : Nat) = 4 + 12) from rfl, h1]
    have h2 := slice4_skip (a := u32be seqno)
      (u32be cmd ++ (u32be (ep.length + fs) ++ (ep ++ (sig ++ u32be SUFFIX_55AA)))) rfl 4 8
    rw [show ((8 : Nat) = 4 + 4) from rfl, show ((12 : Nat) = 4 + 8) from rfl, h2]
    have h3 := slice4_skip (a := u32be cmd)
      (u32be (ep.length + fs) ++ (ep ++ (sig ++ u32be SUFFIX_55AA))) rfl 0 4
    rw [h3]
    exact slice_exact _ rfl
  unfold parseHeader
  rw [if_neg (by omega)]
  rw [htake4]
  rw [if_neg (by decide), if_pos (by decide)]
  unfold parseHeader55aa
  rw [if_neg (by simp only [HEADER_SIZE_55AA]; omega)]
  rw [hs04, hs48, hs812, hs1216]
  rw [beToNat_u32be_of_lt hseq, beToNat_u32be_of_lt hcmd,
    beToNat_u32be_of_lt (show ep.length + fs < 2 ^ 32 by omega)]
  rw [if_neg (by simp only [MAX_PAYLOAD_SIZE]; omega)]
  have hpfx : beToNat (u32be PREFIX_55AA) = PREFIX_55AA := by decide
  rw [hpfx]
  rfl

lemma unpack55aa_frame55 (hmacF : Bytes → Bytes → Bytes) (key : Bytes)
    (seqno cmd : Nat) (ep sig : Bytes) (useHmac noRetcode : Bool)
    (hsig : sig.length = if useHmac then 32 else 4) :
    unpack55aa hmacF (frame55 seqno cmd ep sig (if useHmac then 36 else 8)) key
      ⟨PREFIX_55AA, seqno, cmd, ep.length + (if useHmac then 36 else 8),
        16 + (ep.length + (if useHmac then 36 else 8))⟩ useHmac noRetcode =
    .ok ⟨seqno, cmd,
      (if ¬noRetcode ∧ beToNat ((ep ++ (sig ++ u32be SUFFIX_55AA)).take 4) < 100
        then ep.drop 4 else ep),
      (if ¬noRetcode ∧ beToNat ((ep ++ (sig ++ u32be SUFFIX_55AA)).take 4) < 100
        then beToNat ((ep ++ (sig ++ u32be SUFFIX_55AA)).take 4) else 0),
      (if useHmac
        then decide (hmacF key (hdr55 seqno cmd ep.length 36 ++ ep) = sig)
        else decide (crc32 (hdr55 seqno cmd ep.length 8 ++ ep) = beToNat sig)),
      PREFIX_55AA, none, none⟩ := by
  set fs := (if useHmac then (36 : Nat) else 8) with hfs
  set rest := ep ++ (sig ++ u32be SUFFIX_55AA) with hrest
  have hfs4 : sig.length + 4 = fs := by
    rw [hfs]; cases useHmac <;> simp_all
  have hfr : frame55 seqno cmd ep sig fs = hdr55 seqno cmd ep.length fs ++ rest := by
    simp [frame55, hrest, List.append_assoc]
  have hlenfr : (frame55 seqno cmd ep sig fs).length = 16 + ep.length + sig.length + 4 :=
    length_frame55 ..
  have hs1620 : slice (frame55 seqno cmd ep sig fs) 16 20 = rest.take 4 := by
    rw [hfr]
    have h := slice_shift (hdr55 seqno cmd ep.length fs) rest 0 4
    rw [length_hdr55] at h
    norm_num at h
    rw [h, slice_zero]
  have hsPayload : slice (frame55 seqno cmd ep sig fs) 16 (16 + ep.length) = ep := by
    rw [hfr]
    have h := slice_shift (hdr55 seqno cmd ep.length fs) rest 0 ep.length
    rw [length_hdr55] at h
    norm_num at h
    rw [h, slice_zero, hrest]
    exact take_len_append _ rfl
  have hsPayloadRet : slice (frame55 seqno cmd ep sig fs) 20 (16 + ep.length) = ep.drop 4 := by
    rw [hfr]
    have h := slice_shift (hdr55 seqno cmd ep.length fs) rest 4 ep.length
    rw [length_hdr55] at h
    norm_num at h
    rw [h]
    unfold slice
    rw [hrest, take_len_append _ rfl]
  have htakeAll : ∀ (x : Bytes) (k : Nat), x.length = k → x.take k = x := by
    intro x k hk
    rw [← hk, List.take_length]
  have hsFooter : slice (frame55 seqno cmd ep sig fs) (16 + ep.length)
      (16 + ep.length + fs) = sig ++ u32be SUFFIX_55AA := by
    rw [hfr]
    have h1 := slice_shift (hdr55 seqno cmd ep.length fs) rest ep.length (ep.length + fs)
    rw [length_hdr55] at h1
    rw [show (16 + ep.length + fs = 16 + (ep.length + fs)) from by omega, h1, hrest]
    have h2 := slice_shift ep (sig ++ u32be SUFFIX_55AA) 0 fs
    simp only [Nat.add_zero] at h2
    rw [h2, slice_zero]
    exact htakeAll _ _ (by simp; omega)
  have htakePE : (frame55 seqno cmd ep sig fs).take (16 + ep.length) =
      hdr55 seqno cmd ep.length fs ++ ep := by
    unfold frame55
    exact take_len_append _ (by simp)
  have hsigTake32 : useHmac = true → (sig ++ u32be SUFFIX_55AA).take 32 = sig := by
    intro h
    exact take_len_append _ (by simp_all)
  have hsigTake4 : useHmac = false → (sig ++ u32be SUFFIX_55AA).take 4 = sig := by
    intro h
    exact take_len_append _ (by simp_all)
  have hle20 : (20 : Nat) ≤ (frame55 seqno cmd ep sig fs).length := by
    rw [hlenfr]; omega
  unfold unpack55aa
  dsimp only
  simp only [FOOTER_SIZE_55AA_HMAC, FOOTER_SIZE_55AA_CRC, HEADER_SIZE_55AA, RETCODE_SIZE,
    ← hfs]
  rw [if_neg (by rw [hlenfr]; omega)]
  have hpe : 16 + (ep.length + fs) - fs = 16 + ep.length := by omega
  rw [hpe]
  norm_num
  rw [hs1620]
  simp only [hle20, true_and]
  refine ⟨?_, ?_⟩
  · by_cases hC : noRetcode = false ∧ beToNat (rest.take 4) < 100
    · rw [if_pos hC, if_pos hC, hsPayloadRet]
    · rw [if_neg hC, if_neg hC, hsPayload]
  · rw [hsFooter, htakePE]
    cases useHmac with
    | true =>
      rw [hsigTake32 rfl]
      simp_all
    | false =>
      rw [hsigTake4 rfl]
      simp_all

/-! ## 6699 frame decomposition -/

/-- The 18-byte 6699 header built by `_pack_message_6699` for a ciphertext
of length `ctLen`. -/
def hdr66 (seqno cmd ctLen : Nat) : Bytes :=
  u32be PREFIX_6699 ++ [0x00, 0x00] ++ u32be seqno ++ u32be cmd ++
    u32be (GCM_NONCE_SIZE + ctLen + GCM_TAG_SIZE)

/-- A 6699 frame with nonce, ciphertext and stored tag. -/
def frame66 (seqno cmd : Nat) (nonce ct tag : Bytes) : Bytes :=
  hdr66 seqno cmd ct.length ++ nonce ++ ct ++ (tag ++ u32be SUFFIX_6699)

@[simp] lemma length_hdr66 (seqno cmd ctLen : Nat) :
    (hdr66 seqno cmd ctLen).length = 18 := by
  simp [hdr66]

lemma slice_skip_len {a : Bytes} (rest : Bytes) {n i j i' j' : Nat}
    (ha : a.length = n) (hi : i = n + i') (hj : j = n + j') :
    slice (a ++ rest) i j = slice rest i' j' := by
  subst hi
  subst hj
  rw [← ha]
  exact slice_shift a rest i' j'

lemma pack6699_eq_frame66 (gcmEnc : Bytes → Bytes → Bytes → Bytes → Bytes × Bytes)
    (seqno cmd : Nat) (p key nonce : Bytes)
    (hctlen : (gcmEnc key nonce ((hdr66 seqno cmd p.length).drop 4) p).1.length = p.length) :
    pack6699 gcmEnc seqno cmd p key nonce =
      frame66 seqno cmd nonce
        (gcmEnc key nonce ((hdr66 seqno cmd p.length).drop 4) p).1
        (gcmEnc key nonce ((hdr66 seqno cmd p.length).drop 4) p).2 := by
  simp only [pack6699, frame66, hctlen]
  rfl

lemma length_frame66 (seqno cmd : Nat) (nonce ct tag : Bytes) :
    (frame66 seqno cmd nonce ct tag).length =
      18 + nonce.length + ct.length + tag.length + 4 := by
  simp [frame66]
  omega

lemma parseHeader_frame66 (seqno cmd : Nat) (nonce ct tag : Bytes)
    (hseq : seqno < 2 ^ 32) (hcmd : cmd < 2 ^ 32)
    (hlen : GCM_NONCE_SIZE + ct.length + GCM_TAG_SIZE ≤ 2000) :
    parseHeader (frame66 seqno cmd nonce ct tag) =
      .ok ⟨PREFIX_6699, seqno, cmd, GCM_NONCE_SIZE + ct.length + GCM_TAG_SIZE,
        18 + (GCM_NONCE_SIZE + ct.length + GCM_TAG_SIZE) + 4⟩ := by
  set L := GCM_NONCE_SIZE + ct.length + GCM_TAG_SIZE with hL
  set rest6 := u32be seqno ++ (u32be cmd ++ (u32be L ++
    (nonce ++ (ct ++ (tag ++ u32be SUFFIX_6699))))) with hrest6
  have hfr : frame66 seqno cmd nonce ct tag =
      u32be PREFIX_6699 ++ ([0x00, 0x00] ++ rest6) := by
    simp [frame66, hdr66, hrest6, List.append_assoc]
  have hfr6 : frame66 seqno cmd nonce ct tag =
      (u32be PREFIX_6699 ++ [0x00, 0x00]) ++ rest6 := by
    rw [hfr, List.append_assoc]
  have hlenfr : (frame66 seqno cmd nonce ct tag).length =
      18 + nonce.length + ct.length + tag.length + 4 := length_frame66 ..
  have htake4 : (frame66 seqno cmd nonce ct tag).take 4 = u32be PREFIX_6699 := by
    rw [hfr]
    exact take_len_append _ rfl
  have hs04 : slice (frame66 seqno cmd nonce ct tag) 0 4 = u32be PREFIX_6699 := by
    rw [hfr]
    exact slice_exact _ rfl
  have hs610 : slice (frame66 seqno cmd nonce ct tag) 6 10 = u32be seqno := by
    rw [hfr6, slice_skip_len rest6 rfl (show (6 : Nat) = 6 + 0 by norm_num)
      (show (10 : Nat) = 6 + 4 by norm_num), hrest6]
    exact slice_exact _ rfl
  have hs1014 : slice (frame66 seqno cmd nonce ct tag) 10 14 = u32be cmd := by
    rw [hfr6, slice_skip_len rest6 rfl (show (10 : Nat) = 6 + 4 by norm_num)
      (show (14 : Nat) = 6 + 8 by norm_num), hrest6,
      slice_skip_len _ (rfl : (u32be seqno).length = 4)
        (show (4 : Nat) = 4 + 0 by norm_num) (show (8 : Nat) = 4 + 4 by norm_num)]
    exact slice_exact _ rfl
  have hs1418 : slice (frame66 seqno cmd nonce ct tag) 14 18 = u32be L := by
    rw [hfr6, slice_skip_len rest6 rfl (show (14 : Nat) = 6 + 8 by norm_num)
      (show (18 : Nat) = 6 + 12 by norm_num), hrest6,
      slice_skip_len _ (rfl : (u32be seqno).length = 4)
        (show (8 : Nat) = 4 + 4 by norm_num) (show (12 : Nat) = 4 + 8 by norm_num),
      slice_skip_len _ (rfl : (u32be cmd).length = 4)
        (show (4 : Nat) = 4 + 0 by norm_num) (show (8 : Nat) = 4 + 4 by norm_num)]
    exact slice_exact _ rfl
  unfold parseHeader
  rw [if_neg (by omega)]
  rw [htake4]
  rw [if_pos (by decide)]
  unfold parseHeader6699
  rw [if_neg (by simp only [HEADER_SIZE_6699]; omega)]
  rw [hs04, hs610, hs1014, hs1418]
  rw [beToNat_u32be_of_lt hseq, beToNat_u32be_of_lt hcmd,
    beToNat_u32be_of_lt (show L < 2 ^ 32 by omega)]
  rw [if_neg (by simp only [MAX_PAYLOAD_SIZE]; omega)]
  have hpfx : beToNat (u32be PREFIX_6699) = PREFIX_6699 := by decide
  rw [hpfx]
  rfl

lemma unpack6699_frame66
    (gcmDec : Bytes → Bytes → Bytes → Bytes → Option Bytes → Option Bytes)
    (ctrDec : Bytes → Bytes → Bytes → Bytes)
    (key : Bytes) (seqno cmd : Nat) (nonce ct tag : Bytes)
    (hn : nonce.length = 12) (ht : tag.length = 16) :
    unpack6699 gcmDec ctrDec (frame66 seqno cmd nonce ct tag) key
      ⟨PREFIX_6699, seqno, cmd, GCM_NONCE_SIZE + ct.length + GCM_TAG_SIZE,
        18 + (GCM_NONCE_SIZE + ct.length + GCM_TAG_SIZE) + 4⟩ =
    (let dec := gcmStrategies gcmDec ctrDec key ct nonce tag
      ((hdr66 seqno cmd ct.length).drop 4)
    let strip := dec.1.take 4 = [0x00, 0x00, 0x00, 0x00] ∧ 4 < dec.1.length
    .ok ⟨seqno, cmd, (if strip then dec.1.drop 4 else dec.1),
      (if strip then beToNat (dec.1.take 4) else 0), dec.2, PREFIX_6699,
      some nonce, some tag⟩) := by
  set rest := nonce ++ (ct ++ (tag ++ u32be SUFFIX_6699)) with hrest
  have hfr : frame66 seqno cmd nonce ct tag = hdr66 seqno cmd ct.length ++ rest := by
    simp [frame66, hrest, List.append_assoc]
  have hlenfr : (frame66 seqno cmd nonce ct tag).length =
      18 + nonce.length + ct.length + tag.length + 4 := length_frame66 ..
  have hsNonce : slice (frame66 seqno cmd nonce ct tag) 18 30 = nonce := by
    rw [hfr, slice_skip_len rest (length_hdr66 ..) (show (18 : Nat) = 18 + 0 by norm_num)
      (show (30 : Nat) = 18 + 12 by norm_num), hrest]
    exact slice_exact _ hn
  have hsCt : slice (frame66 seqno cmd nonce ct tag) 30 (30 + ct.length) = ct := by
    rw [hfr, slice_skip_len rest (length_hdr66 ..) (show (30 : Nat) = 18 + 12 by norm_num)
      (show 30 + ct.length = 18 + (12 + ct.length) by omega), hrest,
      slice_skip_len _ hn (show (12 : Nat) = 12 + 0 by norm_num)
        (show 12 + ct.length = 12 + ct.length from rfl)]
    exact slice_exact _ rfl
  have hsTag : slice (frame66 seqno cmd nonce ct tag) (30 + ct.length)
      (30 + ct.length + 16) = tag := by
    rw [hfr, slice_skip_len rest (length_hdr66 ..)
      (show 30 + ct.length = 18 + (12 + ct.length) by omega)
      (show 30 + ct.length + 16 = 18 + (12 + ct.length + 16) by omega), hrest,
      slice_skip_len _ hn (show 12 + ct.length = 12 + ct.length from rfl)
        (show 12 + ct.length + 16 = 12 + (ct.length + 16) by omega),
      slice_skip_len _ (rfl : ct.length = ct.length)
        (show ct.length = ct.length + 0 by omega)
        (show ct.length + 16 = ct.length + 16 from rfl)]
    exact slice_exact _ ht
  have hsAad : slice (frame66 seqno cmd nonce ct tag) 4 18 =
      (hdr66 seqno cmd ct.length).drop 4 := by
    rw [hfr]
    unfold slice
    rw [take_len_append _ (length_hdr66 ..)]
  unfold unpack6699
  dsimp only
  simp only [HEADER_SIZE_6699, GCM_NONCE_SIZE, GCM_TAG_SIZE]
  rw [if_neg (by simp only [hlenfr, hn, ht]; omega)]
  have hpe : 18 + (12 + ct.length + 16) - 16 = 30 + ct.length := by omega
  norm_num
  rw [hpe, hsNonce, hsCt, hsTag, hsAad]
  simp

/-! ## ECB length lemmas -/

lemma flatten_map_chunks16_length (f : Bytes → Bytes) (hf : ∀ b, (f b).length = b.length)
    (d : Bytes) : (((chunks16 d).map f).flatten).length = d.length := by
  have H : ∀ (n : Nat) (d : Bytes), d.length ≤ n →
      (((chunks16 d).map f).flatten).length = d.length := by
    intro n
    induction n with
    | zero =>
      intro d hd
      have hnil : d = [] := List.eq_nil_of_length_eq_zero (by omega)
      subst hnil
      rw [chunks16_eq]
      simp
    | succ n ih =>
      intro d hd
      rw [chunks16_eq]
      split
      · simp [*]
      · rename_i hne
        have h1 : 0 < d.length := List.length_pos.mpr hne
        have ihd := ih (d.drop 16) (by simp; omega)
        simp [ihd, hf]
        omega
  exact H d.length d (le_refl _)

lemma length_pkcs7Pad (p : Bytes) : (pkcs7Pad p).length = p.length + (16 - p.length % 16) := by
  simp [pkcs7Pad, AES_BLOCK_SIZE]

lemma length_ecbEncrypt (blockEnc : Bytes → Bytes) (hb : ∀ b, (blockEnc b).length = b.length)
    (pad : Bool) (p : Bytes) :
    (ecbEncrypt blockEnc pad p).length = (if pad then pkcs7Pad p else p).length := by
  unfold ecbEncrypt
  exact flatten_map_chunks16_length blockEnc hb _

lemma length_processed_le (blockEnc : Bytes → Bytes) (hb : ∀ b, (blockEnc b).length = b.length)
    (encrypt : Bool) (p : Bytes) :
    (if encrypt ∧ p ≠ [] then ecbEncrypt blockEnc true p else p).length ≤ p.length + 16 := by
  split
  · rw [length_ecbEncrypt blockEnc hb]
    simp only [if_pos trivial, if_true, length_pkcs7Pad]
    omega
  · omega

/-- C5: in a 55AA frame the length field counts everything after the
16-byte header up to and including the 4-byte suffix, so the total on-wire
size is `16 + length`; in a 6699 frame the length field counts
`nonce(12) + ciphertext + tag(16)` with the suffix excluded, so the total
on-wire size is `18 + length + 4`; `parse_header` computes `total_length`
by exactly these formulas, and the frames produced by `pack_message`
satisfy them. -/
theorem frame_length_field_math :
    (∀ (data : Bytes) (h : TuyaHeaderL), parseHeader data = .ok h →
      (h.pfx = PREFIX_55AA → h.totalLength = HEADER_SIZE_55AA + h.length) ∧
      (h.pfx = PREFIX_6699 → h.totalLength = HEADER_SIZE_6699 + h.length + 4)) ∧
    (∀ (blockEnc : Bytes → Bytes) (hmacF : Bytes → Bytes → Bytes) (seqno cmd : Nat)
        (p key : Bytes) (encrypt useHmac : Bool),
      (∀ k d, (hmacF k d).length = 32) → seqno < 2 ^ 32 → cmd < 2 ^ 32 →
      (if encrypt ∧ p ≠ [] then ecbEncrypt blockEnc true p else p).length +
        (if useHmac then FOOTER_SIZE_55AA_HMAC else FOOTER_SIZE_55AA_CRC) ≤ 2000 →
      ∃ h : TuyaHeaderL,
        parseHeader (pack55aa blockEnc hmacF seqno cmd p key encrypt useHmac) = .ok h ∧
        h.length = (if encrypt ∧ p ≠ [] then ecbEncrypt blockEnc true p else p).length +
          (if useHmac then FOOTER_SIZE_55AA_HMAC else FOOTER_SIZE_55AA_CRC) ∧
        (pack55aa blockEnc hmacF seqno cmd p key encrypt useHmac).length =
          HEADER_SIZE_55AA + h.length ∧
        h.totalLength = HEADER_SIZE_55AA + h.length) ∧
    (∀ (gcmEnc : Bytes → Bytes → Bytes → Bytes → Bytes × Bytes) (seqno cmd : Nat)
        (p key nonce : Bytes),
      (∀ k n a pl, ((gcmEnc k n a pl).1).length = pl.length) →
      (∀ k n a pl, ((gcmEnc k n a pl).2).length = 16) →
      nonce.length = 12 → seqno < 2 ^ 32 → cmd < 2 ^ 32 →
      GCM_NONCE_SIZE + p.length + GCM_TAG_SIZE ≤ 2000 →
      ∃ h : TuyaHeaderL,
        parseHeader (pack6699 gcmEnc seqno cmd p key nonce) = .ok h ∧
        h.length = GCM_NONCE_SIZE + p.length + GCM_TAG_SIZE ∧
        (pack6699 gcmEnc seqno cmd p key nonce).length =
          HEADER_SIZE_6699 + h.length + 4 ∧
        h.totalLength = HEADER_SIZE_6699 + h.length + 4) := by
  refine ⟨?_, ?_, ?_⟩
  · intro data h hparse
    unfold parseHeader at hparse
    split_ifs at hparse with h1 h2 h3
    · unfold parseHeader6699 at hparse
      dsimp only at hparse
      split_ifs at hparse with h4 h5
      injection hparse with he
      subst he
      refine ⟨?_, ?_⟩ <;> intro hp
      · exfalso
        dsimp only at hp
        rw [slice_zero, h2] at hp
        exact absurd hp (by decide)
      · rfl
    · unfold parseHeader55aa at hparse
      dsimp only at hparse
      split_ifs at hparse with h4 h5
      injection hparse with he
      subst he
      refine ⟨?_, ?_⟩ <;> intro hp
      · rfl
      · exfalso
        dsimp only at hp
        rw [slice_zero, h3] at hp
        exact absurd hp (by decide)
  · intro blockEnc hmacF seqno cmd p key encrypt useHmac hh hseq hcmd hbound
    rw [pack55aa_eq_frame55]
    set ep := (if encrypt ∧ p ≠ [] then ecbEncrypt blockEnc true p else p) with hep
    set sig := (if useHmac = true then
        hmacF key (hdr55 seqno cmd ep.length 36 ++ ep)
      else u32be (crc32 (hdr55 seqno cmd ep.length 8 ++ ep))) with hsig
    have hsiglen : sig.length = if useHmac then 32 else 4 := by
      rw [hsig]
      cases useHmac <;> simp [hh]
    have hfs : (if useHmac = true then (36 : Nat) else 8) =
        (if useHmac = true then FOOTER_SIZE_55AA_HMAC else FOOTER_SIZE_55AA_CRC) := by
      cases useHmac <;> rfl
    refine ⟨⟨PREFIX_55AA, seqno, cmd, ep.length + (if useHmac = true then (36 : Nat) else 8),
      16 + (ep.length + (if useHmac = true then (36 : Nat) else 8))⟩, ?_, ?_, ?_, ?_⟩
    · exact parseHeader_frame55 seqno cmd ep sig _ hseq hcmd (by rw [hfs]; exact hbound)
    · dsimp only
      rw [hfs]
    · rw [length_frame55]
      dsimp only
      have h4 : sig.length + 4 = (if useHmac = true then (36 : Nat) else 8) := by
        rw [hsiglen]; cases useHmac <;> simp
      simp only [HEADER_SIZE_55AA]
      omega
    · dsimp only
      simp only [HEADER_SIZE_55AA]
  · intro gcmEnc seqno cmd p key nonce hct htag hn hseq hcmd hbound
    have hctlen : (gcmEnc key nonce ((hdr66 seqno cmd p.length).drop 4) p).1.length
        = p.length := hct ..
    rw [pack6699_eq_frame66 gcmEnc seqno cmd p key nonce hctlen]
    refine ⟨⟨PREFIX_6699, seqno, cmd, GCM_NONCE_SIZE + p.length + GCM_TAG_SIZE,
      18 + (GCM_NONCE_SIZE + p.length + GCM_TAG_SIZE) + 4⟩, ?_, ?_, ?_, ?_⟩
    · have hp := parseHeader_frame66 seqno cmd nonce
        (gcmEnc key nonce ((hdr66 seqno cmd p.length).drop 4) p).1
        (gcmEnc key nonce ((hdr66 seqno cmd p.length).drop 4) p).2 hseq hcmd
        (by rw [hctlen]; exact hbound)
      rw [hctlen] at hp
      exact hp
    · rfl
    · rw [length_frame66]
      dsimp only
      simp only [HEADER_SIZE_6699, GCM_NONCE_SIZE, GCM_TAG_SIZE, hctlen, hn, htag]
      omega
    · dsimp only
      simp only [HEADER_SIZE_6699]

/-- Witness for C5: concrete frames of both formats satisfy the length
formulas. -/
theorem frame_length_field_math_witness :
    (⟨PREFIX_55AA, 1, 9, 11, 27⟩ : TuyaHeaderL).totalLength =
      HEADER_SIZE_55AA + (⟨PREFIX_55AA, 1, 9, 11, 27⟩ : TuyaHeaderL).length ∧
    (∃ h : TuyaHeaderL,
      parseHeader (pack55aa (fun b => b) (fun _ _ => List.replicate 32 0) 1 9 [1, 2, 3]
        (List.replicate 16 0) false false) = .ok h ∧
      h.totalLength = HEADER_SIZE_55AA + h.length) ∧
    (∃ h : TuyaHeaderL,
      parseHeader (pack6699 (fun _ _ _ pl => (pl, List.replicate 16 0)) 1 7 [1, 2, 3]
        (List.replicate 16 0) (List.replicate 12 0)) = .ok h ∧
      h.totalLength = HEADER_SIZE_6699 + h.length + 4) := by
  refine ⟨?_, ?_, ?_⟩
  · exact (frame_length_field_math.1
      (pack55aa (fun b => b) (fun _ _ => List.replicate 32 0) 1 9 [1, 2, 3]
        (List.replicate 16 0) false false)
      ⟨PREFIX_55AA, 1, 9, 11, 27⟩ (by rfl)).1 rfl
  · obtain ⟨h, h1, _, _, h4⟩ := frame_length_field_math.2.1 (fun b => b)
      (fun _ _ => List.replicate 32 0) 1 9 [1, 2, 3] (List.replicate 16 0) false false
      (fun _ _ => by simp) (by norm_num) (by norm_num) (by decide)
    exact ⟨h, h1, h4⟩
  · obtain ⟨h, h1, _, _, h4⟩ := frame_length_field_math.2.2
      (fun _ _ _ pl => (pl, List.replicate 16 0)) 1 7 [1, 2, 3]
      (List.replicate 16 0) (List.replicate 12 0)
      (fun _ _ _ _ => rfl) (fun _ _ _ _ => by simp) (by simp) (by norm_num) (by norm_num)
      (by decide)
    exact ⟨h, h1, h4⟩

/-- C6: when decoding a 55AA frame with retcode parsing enabled, the
leading u32 of the body is consumed as the retcode precisely when its value
is below 100; otherwise the four bytes stay in the returned payload. -/
theorem retcode_heuristic_55aa (hmacF : Bytes → Bytes → Bytes) (key : Bytes)
    (seqno cmd : Nat) (body sig : Bytes) (useHmac : Bool)
    (hsig : sig.length = if useHmac then 32 else 4) (hb : 4 ≤ body.length) :
    ∃ msg : TuyaMessageL,
      unpack55aa hmacF (frame55 seqno cmd body sig (if useHmac then 36 else 8)) key
        ⟨PREFIX_55AA, seqno, cmd, body.length + (if useHmac then 36 else 8),
          16 + (body.length + (if useHmac then 36 else 8))⟩ useHmac false = .ok msg ∧
      (beToNat (body.take 4) < 100 →
        msg.retcode = beToNat (body.take 4) ∧ msg.payload = body.drop 4) ∧
      (100 ≤ beToNat (body.take 4) → msg.retcode = 0 ∧ msg.payload = body) := by
  have hu := unpack55aa_frame55 hmacF key seqno cmd body sig useHmac false hsig
  have htake : (body ++ (sig ++ u32be SUFFIX_55AA)).take 4 = body.take 4 :=
    List.take_append_of_le_length hb
  rw [htake] at hu
  refine ⟨_, hu, ?_, ?_⟩ <;> intro hc
  · constructor <;> simp [hc]
  · constructor <;> simp [show ¬(beToNat (body.take 4) < 100) from by omega]

/-- Witness for C6: a body whose leading u32 is 50 loses it to the retcode
field. -/
theorem retcode_heuristic_55aa_witness :
    ([0, 0, 0, 0] : Bytes).length = 4 ∧ 4 ≤ ([0, 0, 0, 50, 7] : Bytes).length ∧
    ∃ msg : TuyaMessageL,
      unpack55aa (fun _ _ => List.replicate 32 0)
        (frame55 1 10 [0, 0, 0, 50, 7] [0, 0, 0, 0] 8)
        (List.replicate 16 0)
        ⟨PREFIX_55AA, 1, 10, ([0, 0, 0, 50, 7] : Bytes).length + 8,
          16 + (([0, 0, 0, 50, 7] : Bytes).length + 8)⟩ false false = .ok msg ∧
      (beToNat (([0, 0, 0, 50, 7] : Bytes).take 4) < 100 →
        msg.retcode = beToNat (([0, 0, 0, 50, 7] : Bytes).take 4) ∧
          msg.payload = ([0, 0, 0, 50, 7] : Bytes).drop 4) ∧
      (100 ≤ beToNat (([0, 0, 0, 50, 7] : Bytes).take 4) →
        msg.retcode = 0 ∧ msg.payload = [0, 0, 0, 50, 7]) :=
  ⟨by decide, by decide,
    retcode_heuristic_55aa (fun _ _ => List.replicate 32 0) (List.replicate 16 0)
      1 10 [0, 0, 0, 50, 7] [0, 0, 0, 0] false (by decide) (by decide)⟩

/-- C1 counterexample: for a 55AA version (3.3) with encryption on,
`unpack_message (pack_message c p)` does not return the payload `p` — the
55AA unpack path never decrypts (decryption happens later in
`_decode_payload`), so the returned payload is the ECB ciphertext.  Here
the AES block permutation is instantiated with the identity, making the
returned payload the PKCS#7-padded plaintext, visibly different from `p`. -/
theorem pack_unpack_roundtrip_counterexample :
    ∃ msg : TuyaMessageL,
      unpackMessage (fun _ _ => List.replicate 32 0)
        (fun _ _ _ _ _ => none) (fun _ _ c => c)
        (packMessage (fun b => b) (fun _ _ => List.replicate 32 0)
          (fun _ _ _ pl => (pl, List.replicate 16 0))
          1 10 [0x61] (List.replicate 16 0) 33 true (List.replicate 12 0))
        (List.replicate 16 0) 33 none false = .ok msg ∧
      msg.payload ≠ [0x61] := by
  refine ⟨⟨1, 10, [0x61] ++ List.replicate 15 15, 0, true, PREFIX_55AA, none, none⟩,
    ?_, by decide⟩
  set_option maxRecDepth 10000 in rfl

/-- C1 (amended): for 55AA versions (< 3.5) unpacking a packed frame
returns the command, seqno, `crc_good = true`, and as payload the ECB
ciphertext of `p` (p itself when encryption is off or the payload empty);
for v3.4 the HMAC validates, any alteration of the signed region
(seqno/cmd/payload) with the original stored signature clears `crc_good`,
as does altering the stored signature itself; for v3.5 unpacking returns
`p` exactly with the GCM tag validating via the primary strategy, provided
`p` does not start with four zero bytes followed by more data. -/
theorem pack_unpack_roundtrip_amended :
    (∀ (blockEnc : Bytes → Bytes) (hmacF : Bytes → Bytes → Bytes)
        (gcmEnc : Bytes → Bytes → Bytes → Bytes → Bytes × Bytes)
        (gcmDec : Bytes → Bytes → Bytes → Bytes → Option Bytes → Option Bytes)
        (ctrDec : Bytes → Bytes → Bytes → Bytes)
        (seqno cmd version : Nat) (p key nonce : Bytes) (encrypt : Bool),
      (∀ k d, (hmacF k d).length = 32) →
      (∀ b, (blockEnc b).length = b.length) →
      seqno < 2 ^ 32 → cmd < 2 ^ 32 → p.length ≤ 1500 → version < 35 →
      unpackMessage hmacF gcmDec ctrDec
        (packMessage blockEnc hmacF gcmEnc seqno cmd p key version encrypt nonce)
        key version none true =
      .ok ⟨seqno, cmd, (if encrypt ∧ p ≠ [] then ecbEncrypt blockEnc true p else p), 0,
        true, PREFIX_55AA, none, none⟩) ∧
    (∀ (hmacF : Bytes → Bytes → Bytes) (key : Bytes) (seqno cmd seqno' cmd' : Nat)
        (ep ep' : Bytes),
      (∀ k d, (hmacF k d).length = 32) →
      hmacF key (hdr55 seqno' cmd' ep'.length 36 ++ ep') ≠
        hmacF key (hdr55 seqno cmd ep.length 36 ++ ep) →
      ∃ msg : TuyaMessageL,
        unpack55aa hmacF
          (frame55 seqno' cmd' ep' (hmacF key (hdr55 seqno cmd ep.length 36 ++ ep)) 36)
          key ⟨PREFIX_55AA, seqno', cmd', ep'.length + 36, 16 + (ep'.length + 36)⟩
          true true = .ok msg ∧
        msg.crcGood = false) ∧
    (∀ (hmacF : Bytes → Bytes → Bytes) (key : Bytes) (seqno cmd : Nat) (ep sig' : Bytes),
      sig'.length = 32 →
      sig' ≠ hmacF key (hdr55 seqno cmd ep.length 36 ++ ep) →
      ∃ msg : TuyaMessageL,
        unpack55aa hmacF (frame55 seqno cmd ep sig' 36) key
          ⟨PREFIX_55AA, seqno, cmd, ep.length + 36, 16 + (ep.length + 36)⟩
          true true = .ok msg ∧
        msg.crcGood = false) ∧
    (∀ (blockEnc : Bytes → Bytes) (hmacF : Bytes → Bytes → Bytes)
        (gcmEnc : Bytes → Bytes → Bytes → Bytes → Bytes × Bytes)
        (gcmDec : Bytes → Bytes → Bytes → Bytes → Option Bytes → Option Bytes)
        (ctrDec : Bytes → Bytes → Bytes → Bytes)
        (seqno cmd : Nat) (p key nonce : Bytes) (encrypt : Bool),
      (∀ k n a pl, ((gcmEnc k n a pl).1).length = pl.length) →
      (∀ k n a pl, ((gcmEnc k n a pl).2).length = 16) →
      (∀ k n a pl, gcmDec k (gcmEnc k n a pl).1 n (gcmEnc k n a pl).2 (some a) = some pl) →
      nonce.length = 12 → seqno < 2 ^ 32 → cmd < 2 ^ 32 → p.length ≤ 1500 →
      (p.take 4 = [0x00, 0x00, 0x00, 0x00] → ¬4 < p.length) →
      unpackMessage hmacF gcmDec ctrDec
        (packMessage blockEnc hmacF gcmEnc seqno cmd p key 35 encrypt nonce)
        key 35 none false =
      .ok ⟨seqno, cmd, p, 0, true, PREFIX_6699, some nonce,
        some (gcmEnc key nonce ((hdr66 seqno cmd p.length).drop 4) p).2⟩) := by
  refine ⟨?_, ?_, ?_, ?_⟩
  · intro blockEnc hmacF gcmEnc gcmDec ctrDec seqno cmd version p key nonce encrypt
      hh hb hseq hcmd hp hv
    unfold packMessage
    rw [if_neg (by omega)]
    rw [pack55aa_eq_frame55]
    set u := (decide (34 ≤ version)) with hu
    set ep := (if encrypt = true ∧ p ≠ [] then ecbEncrypt blockEnc true p else p) with hep
    set sig := (if u = true then hmacF key (hdr55 seqno cmd ep.length 36 ++ ep)
      else u32be (crc32 (hdr55 seqno cmd ep.length 8 ++ ep))) with hsig
    have hsiglen : sig.length = if u then 32 else 4 := by
      rw [hsig]; cases u <;> simp [hh]
    have heplen : ep.length ≤ p.length + 16 := by
      rw [hep]; exact length_processed_le blockEnc hb encrypt p
    have hbound : ep.length + (if u then (36 : Nat) else 8) ≤ 2000 := by
      cases u <;> simp <;> omega
    unfold unpackMessage
    rw [parseHeader_frame55 seqno cmd ep sig _ hseq hcmd hbound]
    dsimp only
    rw [if_neg (by decide)]
    have hfs36 : (if u = true then
        hmacF key (hdr55 seqno cmd ep.length 36 ++ ep)
      else u32be (crc32 (hdr55 seqno cmd ep.length 8 ++ ep))) = sig := hsig.symm
    rw [unpack55aa_frame55 hmacF key seqno cmd ep sig u true hsiglen]
    have hpayload : (if ¬true = true ∧
        beToNat ((ep ++ (sig ++ u32be SUFFIX_55AA)).take 4) < 100
      then ep.drop 4 else ep) = ep := by
      rw [if_neg (by simp)]
    have hret : (if ¬true = true ∧
        beToNat ((ep ++ (sig ++ u32be SUFFIX_55AA)).take 4) < 100
      then beToNat ((ep ++ (sig ++ u32be SUFFIX_55AA)).take 4) else 0) = 0 := by
      rw [if_neg (by simp)]
    have hcrc : (if u = true
        then decide (hmacF key (hdr55 seqno cmd ep.length 36 ++ ep) = sig)
        else decide (crc32 (hdr55 seqno cmd ep.length 8 ++ ep) = beToNat sig)) = true := by
      rw [hsig]
      cases u with
      | true => simp
      | false =>
        simp only [Bool.false_eq_true, if_false, decide_eq_true_eq]
        rw [beToNat_u32be_of_lt (crc32_lt _)]
    rw [hpayload, hret, hcrc]
  · intro hmacF key seqno cmd seqno' cmd' ep ep' hh hne
    have hsiglen : (hmacF key (hdr55 seqno cmd ep.length 36 ++ ep)).length =
        if (true : Bool) then 32 else 4 := by simp [hh]
    refine ⟨_, unpack55aa_frame55 hmacF key seqno' cmd' ep'
      (hmacF key (hdr55 seqno cmd ep.length 36 ++ ep)) true true hsiglen, ?_⟩
    dsimp only
    rw [if_pos rfl]
    exact decide_eq_false hne
  · intro hmacF key seqno cmd ep sig' hlen hne
    have hsiglen : sig'.length = if (true : Bool) then 32 else 4 := by simp [hlen]
    refine ⟨_, unpack55aa_frame55 hmacF key seqno cmd ep sig' true true hsiglen, ?_⟩
    dsimp only
    rw [if_pos rfl]
    exact decide_eq_false fun h => hne h.symm
  · intro blockEnc hmacF gcmEnc gcmDec ctrDec seqno cmd p key nonce encrypt
      hct htag hcorrect hn hseq hcmd hp hnz
    unfold packMessage
    rw [if_pos (by omega)]
    have hctlen : (gcmEnc key nonce ((hdr66 seqno cmd p.length).drop 4) p).1.length
        = p.length := hct ..
    rw [pack6699_eq_frame66 gcmEnc seqno cmd p key nonce hctlen]
    unfold unpackMessage
    have hparse := parseHeader_frame66 seqno cmd nonce
      (gcmEnc key nonce ((hdr66 seqno cmd p.length).drop 4) p).1
      (gcmEnc key nonce ((hdr66 seqno cmd p.length).drop 4) p).2 hseq hcmd
      (by rw [hctlen]; simp only [GCM_NONCE_SIZE, GCM_TAG_SIZE]; omega)
    rw [hparse]
    dsimp only
    rw [if_pos rfl]
    rw [unpack6699_frame66 gcmDec ctrDec key seqno cmd nonce _ _ hn (htag ..)]
    dsimp only
    have hstrat : gcmStrategies gcmDec ctrDec key
        (gcmEnc key nonce ((hdr66 seqno cmd p.length).drop 4) p).1 nonce
        (gcmEnc key nonce ((hdr66 seqno cmd p.length).drop 4) p).2
        ((hdr66 seqno cmd
          (gcmEnc key nonce ((hdr66 seqno cmd p.length).drop 4) p).1.length).drop 4) =
        (p, true) := by
      rw [hctlen]
      unfold gcmStrategies decryptGcm
      rw [if_neg (by simp [hn, htag, GCM_NONCE_SIZE, GCM_TAG_SIZE])]
      rw [hcorrect]
    rw [hstrat]
    dsimp only
    rw [if_neg (by intro hx; exact hnz hx.1 hx.2)]
    rw [if_neg (by intro hx; exact hnz hx.1 hx.2)]

/-- Witness for C1 (amended): all four parts at concrete inputs — a v3.3
encrypted frame, a v3.4 tampered body, a v3.4 tampered signature, and a
v3.5 GCM frame. -/
theorem pack_unpack_roundtrip_amended_witness :
    (unpackMessage (fun _ _ => List.replicate 32 0)
        (fun _ _ _ _ _ => none) (fun _ _ c => c)
        (packMessage (fun b => b) (fun _ _ => List.replicate 32 0)
          (fun _ _ _ pl => (pl, List.replicate 16 0))
          1 10 [0x61] (List.replicate 16 0) 33 true (List.replicate 12 0))
        (List.replicate 16 0) 33 none true =
      .ok ⟨1, 10, ecbEncrypt (fun b => b) true [0x61], 0, true, PREFIX_55AA,
        none, none⟩) ∧
    (∃ msg : TuyaMessageL,
      unpack55aa (fun _ d => List.replicate 31 0 ++ [d.length % 256])
        (frame55 1 9 [1]
          ((fun (_ d : Bytes) => List.replicate 31 0 ++ [d.length % 256])
            (List.replicate 16 0) (hdr55 1 9 ([] : Bytes).length 36 ++ ([] : Bytes))) 36)
        (List.replicate 16 0)
        ⟨PREFIX_55AA, 1, 9, ([1] : Bytes).length + 36, 16 + (([1] : Bytes).length + 36)⟩
        true true = .ok msg ∧ msg.crcGood = false) ∧
    (∃ msg : TuyaMessageL,
      unpack55aa (fun _ d => List.replicate 31 0 ++ [d.length % 256])
        (frame55 1 9 [1] (List.replicate 32 1) 36) (List.replicate 16 0)
        ⟨PREFIX_55AA, 1, 9, ([1] : Bytes).length + 36, 16 + (([1] : Bytes).length + 36)⟩
        true true = .ok msg ∧ msg.crcGood = false) ∧
    (unpackMessage (fun _ _ => List.replicate 32 0)
        (fun _ ct _ t _ => if t = List.replicate 16 0 then some ct else none)
        (fun _ _ c => c)
        (packMessage (fun b => b) (fun _ _ => List.replicate 32 0)
          (fun _ _ _ pl => (pl, List.replicate 16 0))
          1 13 [0x61] (List.replicate 16 0) 35 true (List.replicate 12 0))
        (List.replicate 16 0) 35 none false =
      .ok ⟨1, 13, [0x61], 0, true, PREFIX_6699, some (List.replicate 12 0),
        some (List.replicate 16 0)⟩) :=
  ⟨pack_unpack_roundtrip_amended.1 (fun b => b) (fun _ _ => List.replicate 32 0)
      (fun _ _ _ pl => (pl, List.replicate 16 0)) (fun _ _ _ _ _ => none) (fun _ _ c => c)
      1 10 33 [0x61] (List.replicate 16 0) (List.replicate 12 0) true
      (fun _ _ => by simp) (fun _ => rfl) (by norm_num) (by norm_num) (by norm_num)
      (by norm_num),
    pack_unpack_roundtrip_amended.2.1 (fun _ d => List.replicate 31 0 ++ [d.length % 256])
      (List.replicate 16 0) 1 9 1 9 [] [1] (fun _ _ => by simp) (by decide),
    pack_unpack_roundtrip_amended.2.2.1
      (fun _ d => List.replicate 31 0 ++ [d.length % 256]) (List.replicate 16 0)
      1 9 [1] (List.replicate 32 1) (by decide) (by decide),
    pack_unpack_roundtrip_amended.2.2.2 (fun b => b) (fun _ _ => List.replicate 32 0)
      (fun _ _ _ pl => (pl, List.replicate 16 0))
      (fun _ ct _ t _ => if t = List.replicate 16 0 then some ct else none)
      (fun _ _ c => c) 1 13 [0x61] (List.replicate 16 0) (List.replicate 12 0) true
      (fun _ _ _ _ => rfl) (fun _ _ _ _ => by simp) (fun _ _ _ _ => by simp)
      (by simp) (by norm_num) (by norm_num) (by norm_num) (by decide)⟩

/-! ## Session-key negotiation (`device.py`, `TuyaProtocol._negotiate_session_key`) -/

/-- The v3.4 session-key computation of `_negotiate_session_key`, starting
from the SESS_KEY_NEG_RESP payload after its ECB decryption: skip an
optional zero retcode, require at least 48 bytes, take the 16-byte remote
nonce, XOR it with the local nonce, AES-ECB-encrypt without padding
(`blockEnc` is AES under the device key) and keep 16 bytes.  The source's
HMAC comparison is logged but non-fatal and does not affect the result. -/
def sessionKey34FromResp (blockEnc : Bytes → Bytes)
    (localNonce decryptedPayload : Bytes) : Option Bytes :=
  let payload :=
    if 4 ≤ decryptedPayload.length ∧ decryptedPayload.take 4 = [0x00, 0x00, 0x00, 0x00]
    then decryptedPayload.drop 4 else decryptedPayload
  if payload.length < 48 then none
  else
    let remoteNonce := payload.take 16
    let xorResult := List.zipWith (fun a b => a ^^^ b) localNonce remoteNonce
    some ((ecbEncrypt blockEnc false xorResult).take 16)

lemma ecbEncrypt_single (blockEnc : Bytes → Bytes) (x : Bytes) (hx : x.length = 16) :
    ecbEncrypt blockEnc false x = blockEnc x := by
  unfold ecbEncrypt
  dsimp only
  rw [if_neg (by simp)]
  rw [chunks16_eq]
  rw [if_neg (by intro h; subst h; simp at hx)]
  have h1 : x.take 16 = x := by
    rw [← hx, List.take_length]
  have h2 : x.drop 16 = [] := List.drop_eq_nil_of_le (by omega)
  rw [h1, h2]
  have h3 : chunks16 ([] : Bytes) = [] := rfl
  rw [h3]
  simp

lemma sessionKey34_core (blockEnc : Bytes → Bytes) (ln rn hm : Bytes)
    (hrn : rn.length = 16) (hhm : 32 ≤ hm.length) (hln : ln.length = 16) :
    (if (rn ++ hm).length < 48 then (none : Option Bytes)
     else
       some ((ecbEncrypt blockEnc false
         (List.zipWith (fun a b => a ^^^ b) ln ((rn ++ hm).take 16))).take 16)) =
    some ((blockEnc (List.zipWith (fun a b => a ^^^ b) ln rn)).take 16) := by
  rw [if_neg (by simp only [List.length_append]; omega)]
  rw [take_len_append hm hrn]
  rw [ecbEncrypt_single blockEnc _ (by rw [List.length_zipWith, hln, hrn]; simp)]

lemma sessionKey34FromResp_append (blockEnc : Bytes → Bytes) (ln rn hm : Bytes)
    (hrn : rn.length = 16) (hhm : 32 ≤ hm.length)
    (hn4 : rn.take 4 ≠ [0x00, 0x00, 0x00, 0x00]) (hln : ln.length = 16) :
    sessionKey34FromResp blockEnc ln (rn ++ hm) =
      some ((blockEnc (List.zipWith (fun a b => a ^^^ b) ln rn)).take 16) := by
  unfold sessionKey34FromResp
  have ht4 : (rn ++ hm).take 4 = rn.take 4 := List.take_append_of_le_length (by omega)
  have hA : ¬(4 ≤ (rn ++ hm).length ∧ (rn ++ hm).take 4 = [0x00, 0x00, 0x00, 0x00]) := by
    rw [ht4]
    exact fun h => hn4 h.2
  rw [if_neg hA]
  dsimp only
  exact sessionKey34_core blockEnc ln rn hm hrn hhm hln

lemma sessionKey34FromResp_retcode_append (blockEnc : Bytes → Bytes) (ln rn hm : Bytes)
    (hrn : rn.length = 16) (hhm : 32 ≤ hm.length) (hln : ln.length = 16) :
    sessionKey34FromResp blockEnc ln ([0x00, 0x00, 0x00, 0x00] ++ (rn ++ hm)) =
      some ((blockEnc (List.zipWith (fun a b => a ^^^ b) ln rn)).take 16) := by
  unfold sessionKey34FromResp
  have hA : 4 ≤ (([0x00, 0x00, 0x00, 0x00] : Bytes) ++ (rn ++ hm)).length ∧
      (([0x00, 0x00, 0x00, 0x00] : Bytes) ++ (rn ++ hm)).take 4 =
        [0x00, 0x00, 0x00, 0x00] := ⟨by simp, take_len_append _ rfl⟩
  rw [if_pos hA]
  have hd : (([0x00, 0x00, 0x00, 0x00] : Bytes) ++ (rn ++ hm)).drop 4 = rn ++ hm :=
    drop_append_left [0x00, 0x00, 0x00, 0x00] (rn ++ hm)
  rw [hd]
  dsimp only
  exact sessionKey34_core blockEnc ln rn hm hrn hhm hln

/-- C2: the v3.4 session key is the AES-ECB encryption (no padding) under
the device key of `local_nonce XOR remote_nonce`, truncated to 16 bytes —
both without and with a leading zero retcode in the response payload — and
with `local_nonce = 0^16`, `remote_nonce = 0xFF^16` it equals
`AES-ECB(device_key).encrypt(0xFF^16)[:16]`. -/
theorem session_key_derivation_v34 :
    (∀ (blockEnc : Bytes → Bytes) (ln rn hm : Bytes),
      rn.length = 16 → 32 ≤ hm.length → rn.take 4 ≠ [0x00, 0x00, 0x00, 0x00] →
      ln.length = 16 →
      sessionKey34FromResp blockEnc ln (rn ++ hm) =
        some ((blockEnc (List.zipWith (fun a b => a ^^^ b) ln rn)).take 16) ∧
      sessionKey34FromResp blockEnc ln ([0x00, 0x00, 0x00, 0x00] ++ (rn ++ hm)) =
        some ((blockEnc (List.zipWith (fun a b => a ^^^ b) ln rn)).take 16)) ∧
    (∀ (blockEnc : Bytes → Bytes) (hm : Bytes), 32 ≤ hm.length →
      sessionKey34FromResp blockEnc (List.replicate 16 0)
          (List.replicate 16 255 ++ hm) =
        some ((blockEnc (List.replicate 16 255)).take 16)) := by
  constructor
  · intro blockEnc ln rn hm hrn hhm hn4 hln
    exact ⟨sessionKey34FromResp_append blockEnc ln rn hm hrn hhm hn4 hln,
      sessionKey34FromResp_retcode_append blockEnc ln rn hm hrn hhm hln⟩
  · intro blockEnc hm hhm
    have h := sessionKey34FromResp_append blockEnc (List.replicate 16 0)
      (List.replicate 16 255) hm (by simp) hhm (by decide) (by simp)
    rw [h]
    have hx : List.zipWith (fun a b => a ^^^ b) (List.replicate 16 0)
        (List.replicate 16 255) = List.replicate 16 255 := by decide
    rw [hx]

/-- Witness for C2: concrete block permutation (identity), zero local
nonce, all-0xFF remote nonce. -/
theorem session_key_derivation_v34_witness :
    (List.replicate 16 255 : Bytes).length = 16 ∧
    32 ≤ (List.replicate 32 7 : Bytes).length ∧
    sessionKey34FromResp (fun b => b) (List.replicate 16 0)
        (List.replicate 16 255 ++ List.replicate 32 7) =
      some (((fun (b : Bytes) => b) (List.replicate 16 255)).take 16) :=
  ⟨by decide, by decide,
    session_key_derivation_v34.2 (fun b => b) (List.replicate 32 7) (by decide)⟩

/-! ## Message dispatcher (`device.py`, `MessageDispatcher`) -/

/-- One entry of `MessageDispatcher.listeners`: an `asyncio.Semaphore`
still being awaited, a delivered `TuyaMessage`, or `None` (aborted). -/
inductive ListenerSlot where
  | sem : ListenerSlot
  | msg : TuyaMessageL → ListenerSlot
  | dropped : ListenerSlot
  deriving DecidableEq, Repr

def HEARTBEAT_SEQNO : Int := -100
def RESET_SEQNO : Int := -101
def SESS_KEY_SEQNO : Int := -102

/-- `self.listeners[seqno] = value` for a present key. -/
def setSlot : List (Int × ListenerSlot) → Int → ListenerSlot → List (Int × ListenerSlot)
  | [], _, _ => []
  | (k, v) :: rest, key, s =>
    if k = key then (k, s) :: rest else (k, v) :: setSlot rest key s

/-- `MessageDispatcher._dispatch_special`. -/
def dispatchSpecial (listeners : List (Int × ListenerSlot)) (specialSeqno : Int)
    (m : TuyaMessageL) : List (Int × ListenerSlot) :=
  match listeners.lookup specialSeqno with
  | some .sem => setSlot listeners specialSeqno (.msg m)
  | _ => listeners

/-- `MessageDispatcher._dispatch`.  Returns the new listener table and the
list of `status_callback` invocations (unsolicited STATUS deliveries). -/
def dispatch (listeners : List (Int × ListenerSlot)) (m : TuyaMessageL) :
    List (Int × ListenerSlot) × List TuyaMessageL :=
  match listeners.lookup (m.seqno : Int) with
  | some .sem => (setSlot listeners (m.seqno : Int) (.msg m), [])
  | some _ => (listeners, [])
  | none =>
    if m.cmd = CMD_HEART_BEAT then (dispatchSpecial listeners HEARTBEAT_SEQNO m, [])
    else if m.cmd = CMD_SESS_KEY_NEG_RESP then
      (dispatchSpecial listeners SESS_KEY_SEQNO m, [])
    else if m.cmd = CMD_UPDATE_DPS ∨ m.cmd = CMD_STATUS then
      if (listeners.lookup RESET_SEQNO).isSome then
        (dispatchSpecial listeners RESET_SEQNO m, [])
      else if m.cmd = CMD_STATUS then (listeners, [m])
      else (listeners, [])
    else (listeners, [])

/-- Dispatching a sequence of received messages in arrival order,
accumulating the unsolicited deliveries. -/
def dispatchAll (listeners : List (Int × ListenerSlot)) (msgs : List TuyaMessageL) :
    List (Int × ListenerSlot) × List TuyaMessageL :=
  msgs.foldl (fun st m =>
    let r := dispatch st.1 m
    (r.1, st.2 ++ r.2)) (listeners, [])

lemma lookup_setSlot_self (l : List (Int × ListenerSlot)) (k : Int) (v : ListenerSlot)
    (h : (l.lookup k).isSome) : (setSlot l k v).lookup k = some v := by
  induction l with
  | nil => simp [List.lookup] at h
  | cons a rest ih =>
    obtain ⟨ka, va⟩ := a
    by_cases hk : ka = k
    · subst hk
      simp [setSlot, List.lookup]
    · have hbeq : (k == ka) = false := by
        simp
        exact fun hx => hk hx.symm
      rw [setSlot, if_neg hk]
      rw [List.lookup] at h
      rw [List.lookup]
      simp only [hbeq] at h ⊢
      exact ih h

lemma lookup_setSlot_other (l : List (Int × ListenerSlot)) (k k' : Int)
    (v : ListenerSlot) (h : k' ≠ k) : (setSlot l k v).lookup k' = l.lookup k' := by
  induction l with
  | nil => simp [setSlot]
  | cons a rest ih =>
    obtain ⟨ka, va⟩ := a
    by_cases hk : ka = k
    · subst hk
      rw [setSlot, if_pos rfl]
      have hbeq : (k' == ka) = false := by
        simp
        exact h
      simp only [List.lookup, hbeq]
    · rw [setSlot, if_neg hk]
      by_cases hk' : k' = ka
      · subst hk'
        simp only [List.lookup, beq_self_eq_true]
      · have hbeq : (k' == ka) = false := by
          simp
          exact hk'
        simp only [List.lookup, hbeq]
        exact ih

/-- C3: a reply whose seqno has a pending waiter is routed to exactly that
waiter — the seqno match takes priority over every command-based route, no
status callback fires, and no other waiter changes; in particular, with
waiters for seqnos 1, 2, 3 and replies arriving in the order 3, 1, 2,
every waiter ends up holding its own reply. -/
theorem dispatcher_seqno_routing :
    (∀ (listeners : List (Int × ListenerSlot)) (m : TuyaMessageL),
      listeners.lookup (m.seqno : Int) = some .sem →
      dispatch listeners m = (setSlot listeners (m.seqno : Int) (.msg m), []) ∧
      (setSlot listeners (m.seqno : Int) (.msg m)).lookup (m.seqno : Int) =
        some (.msg m) ∧
      ∀ k : Int, k ≠ (m.seqno : Int) →
        (setSlot listeners (m.seqno : Int) (.msg m)).lookup k = listeners.lookup k) ∧
    (∀ i : Nat,
      dispatchAll [(1, .sem), (2, .sem), (3, .sem)]
          [⟨3, CMD_DP_QUERY, [3], 0, true, PREFIX_55AA, none, none⟩,
           ⟨1, CMD_DP_QUERY, [1], 0, true, PREFIX_55AA, none, none⟩,
           ⟨2, CMD_DP_QUERY, [2], 0, true, PREFIX_55AA, none, none⟩] =
        ([(1, .msg ⟨1, CMD_DP_QUERY, [1], 0, true, PREFIX_55AA, none, none⟩),
          (2, .msg ⟨2, CMD_DP_QUERY, [2], 0, true, PREFIX_55AA, none, none⟩),
          (3, .msg ⟨3, CMD_DP_QUERY, [3], 0, true, PREFIX_55AA, none, none⟩)], []) ∧
      (1 ≤ i → i ≤ 3 →
        (dispatchAll [(1, .sem), (2, .sem), (3, .sem)]
          [⟨3, CMD_DP_QUERY, [3], 0, true, PREFIX_55AA, none, none⟩,
           ⟨1, CMD_DP_QUERY, [1], 0, true, PREFIX_55AA, none, none⟩,
           ⟨2, CMD_DP_QUERY, [2], 0, true, PREFIX_55AA, none, none⟩]).1.lookup
            (i : Int) =
          some (.msg ⟨i, CMD_DP_QUERY, [i], 0, true, PREFIX_55AA, none, none⟩))) := by
  constructor
  · intro listeners m h
    refine ⟨?_, lookup_setSlot_self listeners _ _ (by rw [h]; rfl), ?_⟩
    · unfold dispatch
      rw [h]
    · intro k hk
      exact lookup_setSlot_other listeners _ k _ hk
  · intro i
    refine ⟨by decide, ?_⟩
    intro h1 h3
    interval_cases i
    all_goals decide

/-- Witness for C3: a concrete waiter receives its reply, and in the
3-1-2 arrival scenario waiter 2 holds reply 2. -/
theorem dispatcher_seqno_routing_witness :
    dispatch [((5 : Int), ListenerSlot.sem)]
        ⟨5, CMD_DP_QUERY, [], 0, true, PREFIX_55AA, none, none⟩ =
      ([((5 : Int),
          ListenerSlot.msg ⟨5, CMD_DP_QUERY, [], 0, true, PREFIX_55AA, none, none⟩)],
        []) ∧
    (dispatchAll [(1, .sem), (2, .sem), (3, .sem)]
        [⟨3, CMD_DP_QUERY, [3], 0, true, PREFIX_55AA, none, none⟩,
         ⟨1, CMD_DP_QUERY, [1], 0, true, PREFIX_55AA, none, none⟩,
         ⟨2, CMD_DP_QUERY, [2], 0, true, PREFIX_55AA, none, none⟩]).1.lookup
          ((2 : Nat) : Int) =
      some (.msg ⟨2, CMD_DP_QUERY, [2], 0, true, PREFIX_55AA, none, none⟩) :=
  ⟨(dispatcher_seqno_routing.1 [((5 : Int), ListenerSlot.sem)]
      ⟨5, CMD_DP_QUERY, [], 0, true, PREFIX_55AA, none, none⟩ (by decide)).1,
    (dispatcher_seqno_routing.2 2).2 (by norm_num) (by norm_num)⟩

/-! ## Payload templates (`constants.py`, `PAYLOAD_DICT`) and payload
generation (`device.py`, `TuyaProtocol._generate_payload`)

The JSON objects are modelled at the object level (ordered key/value
lists); `json.dumps` serialisation is not modelled — the claims about this
code concern the chosen command byte and the object contents. -/

/-- Device type tags (`DEVICE_TYPE_0A` …). -/
inductive DeviceType where
  | t0a | t0d | v34 | v35
  deriving DecidableEq, Repr

/-- A DP value (JSON scalar). -/
inductive DpVal where
  | b : Bool → DpVal
  | i : Int → DpVal
  | s : String → DpVal
  | nullv : DpVal
  deriving DecidableEq, Repr

/-- The `data` argument a caller passes to `exchange`/`_generate_payload`:
either a list of DP ids (`update_dps`/`reset`) or a DP map (`set_dps`). -/
inductive XData where
  | ids : List Int → XData
  | dps : List (String × DpVal) → XData
  deriving DecidableEq, Repr

/-- A value in the generated JSON object. -/
inductive JVal where
  | str : String → JVal
  | int : Int → JVal
  | ints : List Int → JVal
  | xdata : XData → JVal
  | wrappedDps : XData → JVal
  | pendingDps : List String → JVal
  deriving DecidableEq, Repr

/-- Python dict assignment: replace the value of an existing key in place,
append a missing key. -/
def setKey {α : Type} : List (String × α) → String → α → List (String × α)
  | [], k, v => [(k, v)]
  | (k0, v0) :: rest, k, v =>
    if k0 = k then (k0, v) :: rest else (k0, v0) :: setKey rest k v

def hasKey {α : Type} (obj : List (String × α)) (k : String) : Bool :=
  (obj.lookup k).isSome

/-- The template entry of `PAYLOAD_DICT`: optional `command_override` and
optional `command` object. -/
structure PayloadTemplate where
  commandOverride : Option Nat
  command : Option (List (String × JVal))
  deriving DecidableEq, Repr

/-- `PAYLOAD_DICT` of `constants.py`. -/
def PAYLOAD_DICT : DeviceType → Nat → Option PayloadTemplate
  | .t0a, c =>
    if c = CMD_AP_CONFIG then
      some ⟨none, some [("gwId", .str ""), ("devId", .str ""), ("uid", .str ""),
        ("t", .str "")]⟩
    else if c = CMD_CONTROL then
      some ⟨none, some [("devId", .str ""), ("uid", .str ""), ("t", .str "")]⟩
    else if c = CMD_STATUS then
      some ⟨none, some [("gwId", .str ""), ("devId", .str "")]⟩
    else if c = CMD_HEART_BEAT then
      some ⟨none, some [("gwId", .str ""), ("devId", .str "")]⟩
    else if c = CMD_DP_QUERY then
      some ⟨none, some [("gwId", .str ""), ("devId", .str ""), ("uid", .str ""),
        ("t", .str "")]⟩
    else if c = CMD_CONTROL_NEW then
      some ⟨none, some [("devId", .str ""), ("uid", .str ""), ("t", .str "")]⟩
    else if c = CMD_DP_QUERY_NEW then
      some ⟨none, some [("devId", .str ""), ("uid", .str ""), ("t", .str "")]⟩
    else if c = CMD_UPDATE_DPS then
      some ⟨none, some [("dpId", .ints [18, 19, 20])]⟩
    else none
  | .t0d, c =>
    if c = CMD_DP_QUERY then
      some ⟨some CMD_CONTROL_NEW, some [("devId", .str ""), ("uid", .str ""),
        ("t", .str "")]⟩
    else none
  | .v34, c =>
    if c = CMD_CONTROL then
      some ⟨some CMD_CONTROL_NEW, some [("protocol", .int 5), ("t", .str "int"),
        ("data", .str "")]⟩
    else if c = CMD_DP_QUERY then some ⟨some CMD_DP_QUERY_NEW, none⟩
    else none
  | .v35, c =>
    if c = CMD_CONTROL then
      some ⟨some CMD_CONTROL_NEW, some [("protocol", .int 5), ("t", .str "int"),
        ("data", .str "")]⟩
    else if c = CMD_DP_QUERY then
      some ⟨some CMD_DP_QUERY_NEW, some [("devId", .str ""), ("uid", .str ""),
        ("t", .str "")]⟩
    else none

/-- `MessagePayload` at object level: the final command byte (after
`command_override`) and the filled JSON object. -/
structure MessagePayloadJ where
  cmd : Nat
  json : List (String × JVal)
  deriving DecidableEq, Repr

/-- `TuyaProtocol._generate_payload`. -/
def generatePayload (deviceType : DeviceType) (deviceId : String) (now : Int)
    (dpsToRequest : List String) (command : Nat) (data : Option XData) :
    MessagePayloadJ :=
  let step1 : Option Nat × Option (List (String × JVal)) :=
    match PAYLOAD_DICT deviceType command with
    | some t => (t.commandOverride, t.command)
    | none => (none, none)
  let step2 : Option Nat × Option (List (String × JVal)) :=
    if step1.2 = none ∧ deviceType ≠ .t0a then
      match PAYLOAD_DICT .t0a command with
      | some t => ((if step1.1 = none then t.commandOverride else step1.1), t.command)
      | none => step1
    else step1
  let jsonData0 := step2.2.getD
    [("gwId", .str ""), ("devId", .str ""), ("uid", .str ""), ("t", .str "")]
  let j1 := if hasKey jsonData0 "gwId" then setKey jsonData0 "gwId" (.str deviceId)
    else jsonData0
  let j2 := if hasKey j1 "devId" then setKey j1 "devId" (.str deviceId) else j1
  let j3 := if hasKey j2 "uid" then setKey j2 "uid" (.str deviceId) else j2
  let j4 := if hasKey j3 "t" then
      (if j3.lookup "t" = some (.str "int") then setKey j3 "t" (.int now)
       else setKey j3 "t" (.str (toString now)))
    else j3
  let j5 := match data with
    | some d =>
      if hasKey j4 "dpId" then setKey j4 "dpId" (.xdata d)
      else if hasKey j4 "data" then setKey j4 "data" (.wrappedDps d)
      else setKey j4 "dps" (.xdata d)
    | none =>
      if deviceType = .t0d ∧ command = CMD_DP_QUERY then
        setKey j4 "dps" (.pendingDps dpsToRequest)
      else j4
  ⟨step2.1.getD command, j5⟩

/-- The `"data unvalid"` detection of `TuyaProtocol._decode_payload`
(lines after UTF-8 decoding): when the decoded payload string contains the
literal substring, the device type becomes `type_0d` and no result is
returned; otherwise the device type is unchanged and decoding continues
with whatever the rest of the function produces (`parsed`). -/
def decodePayloadDataUnvalidStep (deviceType : DeviceType) (payloadStr : String)
    (parsed : Option (List (String × JVal))) :
    DeviceType × Option (List (String × JVal)) :=
  if "data unvalid".toList <:+: payloadStr.toList then (.t0d, none)
  else (deviceType, parsed)

/-- C4: a decoded payload containing `data unvalid` switches the device
type to `type_0d` and yields no result, and a DP_QUERY generated while the
device type is `type_0d` carries the override command byte CONTROL_NEW
(0x0D) instead of DP_QUERY (0x0A). -/
theorem data_unvalid_escalates_to_type0d :
    (∀ (dt : DeviceType) (s : String) (parsed : Option (List (String × JVal))),
      "data unvalid".toList <:+: s.toList →
      decodePayloadDataUnvalidStep dt s parsed = (.t0d, none)) ∧
    (∀ (deviceId : String) (now : Int) (dpsToRequest : List String)
        (data : Option XData),
      (generatePayload .t0d deviceId now dpsToRequest CMD_DP_QUERY data).cmd =
        CMD_CONTROL_NEW) ∧
    CMD_CONTROL_NEW = 0x0D ∧ CMD_DP_QUERY = 0x0A := by
  refine ⟨?_, ?_, rfl, rfl⟩
  · intro dt s parsed h
    unfold decodePayloadDataUnvalidStep
    rw [if_pos h]
  · intro deviceId now dpsToRequest data
    cases data <;> rfl

/-- Witness for C4: a concrete payload string containing `data unvalid`. -/
theorem data_unvalid_escalates_to_type0d_witness :
    decodePayloadDataUnvalidStep .t0a "json: data unvalid !" none = (.t0d, none) :=
  data_unvalid_escalates_to_type0d.1 .t0a "json: data unvalid !" none (by decide)

/-! ## Exchange wait-seqno selection and `reset` (`device.py`) -/

/-- The wait-sequence-number choice of `TuyaProtocol.exchange` (made on the
generated payload's command, i.e. after any `command_override`):
HEARTBEAT's virtual seqno for heartbeats, RESET's for UPDATE_DPS, otherwise
the seqno assigned to the outgoing frame. -/
def waitSeqnoFor (payloadCmd assignedSeqno : Nat) : Int :=
  if payloadCmd = CMD_HEART_BEAT then HEARTBEAT_SEQNO
  else if payloadCmd = CMD_UPDATE_DPS then RESET_SEQNO
  else (assignedSeqno : Int)

/-- Outcome of `TuyaProtocol.reset`: the device type afterwards, the
payload sent by the exchange (if any), the seqno the engine waits on, and
the immediate result when no exchange happens. -/
structure ResetOutcome where
  deviceType : DeviceType
  sent : Option MessagePayloadJ
  waitSeqno : Option Int
  immediateResult : Option Bool
  deriving DecidableEq, Repr

/-- `TuyaProtocol.reset(dpIds)`: for version ≥ 3.3 switch the device type
to `type_0a` and exchange a CMD_UPDATE_DPS frame built from `dpIds` (the
generated payload's command drives the wait-seqno choice); below 3.3
return True without any exchange.  Versions are scaled by ten. -/
def resetModel (version : Nat) (dt : DeviceType) (deviceId : String) (now : Int)
    (dpsToRequest : List String) (assignedSeqno : Nat) (dpIds : Option (List Int)) :
    ResetOutcome :=
  if 33 ≤ version then
    let payload := generatePayload .t0a deviceId now dpsToRequest CMD_UPDATE_DPS
      (dpIds.map XData.ids)
    ⟨.t0a, some payload, some (waitSeqnoFor payload.cmd assignedSeqno), none⟩
  else ⟨dt, none, none, some true⟩

/-- C8: for protocol versions ≥ 3.3, `reset(dpIds)` switches the device
type to `type_0a`, sends an UPDATE_DPS frame whose `dpId` field carries the
given DP id list, and waits on the RESET virtual seqno rather than the
assigned outgoing seqno; below 3.3 it performs no exchange and returns
True. -/
theorem reset_switches_type_and_waits_on_reset :
    (∀ (version : Nat) (dt : DeviceType) (deviceId : String) (now : Int)
        (dpsToRequest : List String) (assignedSeqno : Nat) (dpIds : List Int),
      33 ≤ version →
      (resetModel version dt deviceId now dpsToRequest assignedSeqno
        (some dpIds)).deviceType = .t0a ∧
      (∃ pl : MessagePayloadJ,
        (resetModel version dt deviceId now dpsToRequest assignedSeqno
          (some dpIds)).sent = some pl ∧
        pl.cmd = CMD_UPDATE_DPS ∧
        pl.json = [("dpId", .xdata (.ids dpIds))]) ∧
      (resetModel version dt deviceId now dpsToRequest assignedSeqno
        (some dpIds)).waitSeqno = some RESET_SEQNO ∧
      RESET_SEQNO ≠ (assignedSeqno : Int)) ∧
    (∀ (version : Nat) (dt : DeviceType) (deviceId : String) (now : Int)
        (dpsToRequest : List String) (assignedSeqno : Nat) (dpIds : Option (List Int)),
      version < 33 →
      (resetModel version dt deviceId now dpsToRequest assignedSeqno dpIds).sent =
        none ∧
      (resetModel version dt deviceId now dpsToRequest assignedSeqno
        dpIds).immediateResult = some true) := by
  constructor
  · intro version dt deviceId now dpsToRequest assignedSeqno dpIds hv
    unfold resetModel
    rw [if_pos hv]
    refine ⟨rfl, ⟨_, rfl, rfl, rfl⟩, rfl, ?_⟩
    intro h
    have : (0 : Int) ≤ assignedSeqno := Int.ofNat_nonneg _
    rw [← h] at this
    norm_num [RESET_SEQNO] at this
  · intro version dt deviceId now dpsToRequest assignedSeqno dpIds hv
    unfold resetModel
    rw [if_neg (by omega)]
    exact ⟨rfl, rfl⟩

/-- Witness for C8: concrete reset at v3.3 with the whitelist DP ids, and
at v3.1 with no exchange. -/
theorem reset_switches_type_and_waits_on_reset_witness :
    ((resetModel 33 .t0d "dev" 0 [] 4 (some [18, 19, 20])).deviceType = .t0a ∧
      (∃ pl : MessagePayloadJ,
        (resetModel 33 .t0d "dev" 0 [] 4 (some [18, 19, 20])).sent = some pl ∧
        pl.cmd = CMD_UPDATE_DPS ∧
        pl.json = [("dpId", .xdata (.ids [18, 19, 20]))]) ∧
      (resetModel 33 .t0d "dev" 0 [] 4 (some [18, 19, 20])).waitSeqno =
        some RESET_SEQNO ∧
      RESET_SEQNO ≠ ((4 : Nat) : Int)) ∧
    (resetModel 31 .t0a "dev" 0 [] 4 none).sent = none ∧
    (resetModel 31 .t0a "dev" 0 [] 4 none).immediateResult = some true :=
  ⟨reset_switches_type_and_waits_on_reset.1 33 .t0d "dev" 0 [] 4 [18, 19, 20]
      (by norm_num),
    reset_switches_type_and_waits_on_reset.2 31 .t0a "dev" 0 [] 4 none (by norm_num)⟩

/-! ## DP cache and the status listener (`device.py`, `TuyaProtocol.status`
and `TuyaProtocol._handle_status_update`)

Decoded responses are modelled as
`Option (Option (List (String × DpVal)))`: the outer `none` is an
exchange/decoding that produced no result, the inner level records whether
the decoded dict has a `dps` key and its content.  The second component of
each step is the list of `listener.status_updated(...)` invocations the
step performs, each carrying its argument (the DP cache snapshot). -/

/-- Python `dict.update`. -/
def dictUpdate (base upd : List (String × DpVal)) : List (String × DpVal) :=
  upd.foldl (fun acc kv => setKey acc kv.1 kv.2) base

/-- `TuyaProtocol.status`: exchange a DP_QUERY and, if the result has a
`dps` key, merge it into the DP cache.  No listener callback is made. -/
def statusStep (cache : List (String × DpVal))
    (resp : Option (Option (List (String × DpVal)))) :
    List (String × DpVal) × List (List (String × DpVal)) :=
  match resp with
  | some (some d) => (dictUpdate cache d, [])
  | _ => (cache, [])

/-- `TuyaProtocol._handle_status_update`: decode the unsolicited STATUS
payload and, if it has a `dps` key, merge it into the DP cache and call
`listener.status_updated(self.dps_cache)` with the full updated cache. -/
def handleStatusUpdate (cache : List (String × DpVal))
    (decoded : Option (Option (List (String × DpVal)))) :
    List (String × DpVal) × List (List (String × DpVal)) :=
  match decoded with
  | some (some d) =>
    let c := dictUpdate cache d
    (c, [c])
  | _ => (cache, [])

/-- C9 counterexample: a successful `status()` reply merges the DP cache
but performs zero `status_updated` invocations — the claim that the
listener is called after every successful `status()` reply fails. -/
theorem status_updated_after_status_counterexample :
    (statusStep [("1", DpVal.b false)]
        (some (some [("1", DpVal.b true), ("20", DpVal.i 450)]))).2 = [] ∧
    (statusStep [("1", DpVal.b false)]
        (some (some [("1", DpVal.b true), ("20", DpVal.i 450)]))).1 =
      [("1", DpVal.b true), ("20", DpVal.i 450)] := by
  constructor <;> rfl

/-- C9 (amended): `status_updated` is invoked, with the full updated DP
cache as argument, exactly on unsolicited STATUS frames whose payload
decodes to a dict with a `dps` key (such frames reach the status callback
when no waiter holds their seqno and no RESET waiter is pending);
`status()` merges a successful reply's `dps` into the cache but does not
invoke the listener. -/
theorem status_updated_callback_amended :
    (∀ cache d : List (String × DpVal),
      handleStatusUpdate cache (some (some d)) =
        (dictUpdate cache d, [dictUpdate cache d])) ∧
    (∀ cache : List (String × DpVal),
      handleStatusUpdate cache none = (cache, []) ∧
      handleStatusUpdate cache (some none) = (cache, [])) ∧
    (∀ cache d : List (String × DpVal),
      statusStep cache (some (some d)) = (dictUpdate cache d, []) ∧
      statusStep cache none = (cache, [])) ∧
    (∀ (listeners : List (Int × ListenerSlot)) (m : TuyaMessageL),
      m.cmd = CMD_STATUS →
      listeners.lookup (m.seqno : Int) = none →
      listeners.lookup RESET_SEQNO = none →
      dispatch listeners m = (listeners, [m])) := by
  refine ⟨fun cache d => rfl, fun cache => ⟨rfl, rfl⟩, fun cache d => ⟨rfl, rfl⟩, ?_⟩
  intro listeners m hm hseq hreset
  unfold dispatch
  rw [hseq, hm]
  rw [if_neg (by decide), if_neg (by decide), if_pos (by right; rfl)]
  rw [hreset]
  rw [if_neg (by simp)]
  rw [if_pos rfl]

/-- Witness for C9 (amended): concrete unsolicited STATUS delivery. -/
theorem status_updated_callback_amended_witness :
    handleStatusUpdate [] (some (some [("1", DpVal.b true)])) =
      (dictUpdate [] [("1", DpVal.b true)], [dictUpdate [] [("1", DpVal.b true)]]) ∧
    dispatch [] ⟨7, CMD_STATUS, [1], 0, true, PREFIX_55AA, none, none⟩ =
      ([], [⟨7, CMD_STATUS, [1], 0, true, PREFIX_55AA, none, none⟩]) :=
  ⟨status_updated_callback_amended.1 [] [("1", DpVal.b true)],
    status_updated_callback_amended.2.2.2 []
      ⟨7, CMD_STATUS, [1], 0, true, PREFIX_55AA, none, none⟩ rfl rfl rfl⟩

/-- C7: the 6699 decryptor tries GCM with the 14-byte AAD, then GCM
without AAD, then raw AES-CTR with counter `nonce ‖ 0x00000002`; the first
success wins, the CTR fallback clears `crc_good`, and when all three fail
the message is still returned with an empty payload and
`crc_good = false` instead of raising. -/
theorem gcm_fallback_order :
    (∀ (gcmDec : Bytes → Bytes → Bytes → Bytes → Option Bytes → Option Bytes)
        (ctrDec : Bytes → Bytes → Bytes → Bytes) (key ct nonce tag aad pl : Bytes),
      decryptGcm gcmDec key ct nonce tag (some aad) = some pl →
      gcmStrategies gcmDec ctrDec key ct nonce tag aad = (pl, true)) ∧
    (∀ (gcmDec : Bytes → Bytes → Bytes → Bytes → Option Bytes → Option Bytes)
        (ctrDec : Bytes → Bytes → Bytes → Bytes) (key ct nonce tag aad pl : Bytes),
      decryptGcm gcmDec key ct nonce tag (some aad) = none →
      decryptGcm gcmDec key ct nonce tag none = some pl →
      gcmStrategies gcmDec ctrDec key ct nonce tag aad = (pl, true)) ∧
    (∀ (gcmDec : Bytes → Bytes → Bytes → Bytes → Option Bytes → Option Bytes)
        (ctrDec : Bytes → Bytes → Bytes → Bytes) (key ct nonce tag aad : Bytes),
      decryptGcm gcmDec key ct nonce tag (some aad) = none →
      decryptGcm gcmDec key ct nonce tag none = none →
      nonce.length = GCM_NONCE_SIZE →
      gcmStrategies gcmDec ctrDec key ct nonce tag aad =
        (ctrDec key (nonce ++ [0x00, 0x00, 0x00, 0x02]) ct, false)) ∧
    (∀ (gcmDec : Bytes → Bytes → Bytes → Bytes → Option Bytes → Option Bytes)
        (ctrDec : Bytes → Bytes → Bytes → Bytes) (key ct nonce tag aad : Bytes),
      decryptGcm gcmDec key ct nonce tag (some aad) = none →
      decryptGcm gcmDec key ct nonce tag none = none →
      decryptGcmNoauth ctrDec key ct nonce = none →
      gcmStrategies gcmDec ctrDec key ct nonce tag aad = ([], false)) ∧
    (∀ (gcmDec : Bytes → Bytes → Bytes → Bytes → Option Bytes → Option Bytes)
        (ctrDec : Bytes → Bytes → Bytes → Bytes) (data key : Bytes)
        (header : TuyaHeaderL),
      header.totalLength ≤ data.length →
      ∃ msg : TuyaMessageL, unpack6699 gcmDec ctrDec data key header = .ok msg) ∧
    (∃ msg : TuyaMessageL,
      unpack6699 (fun _ _ _ _ _ => none) (fun _ _ c => c)
        (u32be PREFIX_6699 ++ [0, 0] ++ u32be 1 ++ u32be 8 ++ u32be 0 ++
          u32be SUFFIX_6699)
        (List.replicate 16 0) ⟨PREFIX_6699, 1, 8, 0, 22⟩ = .ok msg ∧
      msg.payload = [] ∧ msg.crcGood = false) := by
  refine ⟨?_, ?_, ?_, ?_, ?_, ?_⟩
  · intro gcmDec ctrDec key ct nonce tag aad pl h1
    unfold gcmStrategies
    rw [h1]
  · intro gcmDec ctrDec key ct nonce tag aad pl h1 h2
    unfold gcmStrategies
    rw [h1, h2]
  · intro gcmDec ctrDec key ct nonce tag aad h1 h2 hn
    unfold gcmStrategies
    rw [h1, h2]
    unfold decryptGcmNoauth
    rw [if_neg (by rw [hn]; simp)]
  · intro gcmDec ctrDec key ct nonce tag aad h1 h2 h3
    unfold gcmStrategies
    rw [h1, h2, h3]
  · intro gcmDec ctrDec data key header h
    unfold unpack6699
    rw [if_neg (by omega)]
    exact ⟨_, rfl⟩
  · exact ⟨_, rfl, rfl, rfl⟩

/-- Witness for C7: concrete instances of the first-success, CTR-fallback
and totality conjuncts. -/
theorem gcm_fallback_order_witness :
    gcmStrategies (fun _ ct _ _ _ => some ct) (fun _ _ c => c)
        (List.replicate 16 0) [1, 2] (List.replicate 12 0) (List.replicate 16 0)
        [9] = ([1, 2], true) ∧
    gcmStrategies (fun _ _ _ _ _ => none) (fun _ _ c => c)
        (List.replicate 16 0) [1, 2] (List.replicate 12 0) (List.replicate 16 0)
        [9] =
      ((fun (_ _ c : Bytes) => c) (List.replicate 16 0)
        (List.replicate 12 0 ++ [0x00, 0x00, 0x00, 0x02]) [1, 2], false) ∧
    ∃ msg : TuyaMessageL,
      unpack6699 (fun _ _ _ _ _ => none) (fun _ _ c => c)
        (u32be PREFIX_6699 ++ [0, 0] ++ u32be 1 ++ u32be 8 ++ u32be 0 ++
          u32be SUFFIX_6699)
        (List.replicate 16 0) ⟨PREFIX_6699, 1, 8, 0, 22⟩ = .ok msg :=
  ⟨gcm_fallback_order.1 (fun _ ct _ _ _ => some ct) (fun _ _ c => c)
      (List.replicate 16 0) [1, 2] (List.replicate 12 0) (List.replicate 16 0)
      [9] [1, 2] (by decide),
    gcm_fallback_order.2.2.1 (fun _ _ _ _ _ => none) (fun _ _ c => c)
      (List.replicate 16 0) [1, 2] (List.replicate 12 0) (List.replicate 16 0)
      [9] rfl rfl (by decide),
    gcm_fallback_order.2.2.2.2.1 (fun _ _ _ _ _ => none) (fun _ _ c => c)
      (u32be PREFIX_6699 ++ [0, 0] ++ u32be 1 ++ u32be 8 ++ u32be 0 ++
        u32be SUFFIX_6699)
      (List.replicate 16 0) ⟨PREFIX_6699, 1, 8, 0, 22⟩ (by decide)⟩

end Pytuya
